import Mathlib

/-!
# go-yandex-personal-gofermart: the order-reconciliation engine

A shallow embedding of the accrual client (`internal/http/client/accrual.go`),
the order store (`internal/database/database.go`) and the worker pool
(`internal/async/worker_pool.go`), followed by theorems about them.

Conventions.
* A Go `error` is a `GoError`; a result `(v, err)` is a pair whose second
  component is `Option GoError` (`none` is Go's `nil`).
* Goroutine bodies are embedded as functions that return the list of `Effect`s
  they perform, in program order, together with the state they end in.
* Go strings are byte strings; here they are `String`s. The operations used
  (equality, substring search, decimal parsing) agree on valid UTF-8.
-/

namespace Gofermart

/-! ## Errors -/

/-- Go `error` values that reach the engine: the two sentinels of package
`client`, errors of `strconv`, any other error (identified by its message),
and an error wrapped by `fmt.Errorf("... %w", err)`. -/
inductive GoError where
  /-- The sentinel `client.ErrTooManyRequests = errors.New("too many requests")`. -/
  | ErrTooManyRequests : GoError
  /-- The sentinel `client.ErrNoContent = errors.New("no content")`. -/
  | ErrNoContent : GoError
  /-- The error `strconv.ErrSyntax` inside a `*strconv.NumError`. -/
  | ErrSyntax : GoError
  /-- The error `strconv.ErrRange` inside a `*strconv.NumError`. -/
  | ErrRange : GoError
  /-- Any other error value (transport, decoding, storage). -/
  | other (msg : String) : GoError
  /-- The value of `fmt.Errorf(format, ..., err)` with one `%w` verb. -/
  | wrap (msg : String) (inner : GoError) : GoError
  deriving DecidableEq, Repr

/-- The method `Error()`. -/
def GoError.Error : GoError → String
  | .ErrTooManyRequests => "too many requests"
  | .ErrNoContent => "no content"
  | .ErrSyntax => "invalid syntax"
  | .ErrRange => "value out of range"
  | .other msg => msg
  | .wrap msg _ => msg

/-- The function `errors.Unwrap`. -/
def GoError.Unwrap : GoError → Option GoError
  | .wrap _ inner => some inner
  | _ => none

/-- The function `errors.Is(err, target)`: walk the `Unwrap` chain of `err` and compare
each link with `target`. -/
def errorsIs : GoError → GoError → Bool
  | .wrap msg inner, target =>
      if GoError.wrap msg inner = target then true else errorsIs inner target
  | err, target => decide (err = target)

/-- The call `fmt.Errorf("error worker %d %w", nameWorker, err)` of `WorkerPool.worker`. -/
def workerError (nameWorker : Nat) (err : GoError) : GoError :=
  .wrap ("error worker " ++ toString nameWorker ++ " " ++ err.Error) err

/-! ## Models (`internal/models/models.go`) -/

/-- A Go `float64`, given by its IEEE-754 bit pattern. The engine only copies
such values. -/
structure Float64 where
  bits : Nat
  deriving DecidableEq, Repr

/-- The zero value `0.0`. -/
def Float64.zero : Float64 := ⟨0⟩

def StatusNew : String := "NEW"
def StatusProcessing : String := "PROCESSING"
def StatusInvalid : String := "INVALID"
def StatusProcessed : String := "PROCESSED"

/-- The struct `models.AccrualInfo`. -/
structure AccrualInfo where
  Order : String
  Status : String
  Accrual : Float64
  deriving DecidableEq, Repr

/-- The struct `models.Order` (`UploadedAt` is not set by the operations embedded here). -/
structure Order where
  ID : String
  Status : String
  Accrual : Float64
  deriving DecidableEq, Repr

/-! ## Accrual client (`internal/http/client/accrual.go`) -/

def StatusTooManyRequests : Nat := 429
def StatusNoContent : Nat := 204

/-- The function `http.StatusText`, on the codes used here. -/
def StatusText (code : Nat) : String :=
  if code = 204 then "No Content"
  else if code = 429 then "Too Many Requests"
  else ""

/-- The function `strings.Contains(s, substr)`. -/
def stringsContains (s substr : String) : Bool :=
  s.toList.tails.any (fun t => substr.toList.isPrefixOf t)

/-- What one `resty` round trip `c.client.R().SetResult(&accrual)...Get(url)`
leaves behind: the decoded `accrual` (zero value unless a body was decoded), the
response's `StatusCode()` and `Status()` (`0` and `""` when no HTTP response
was received) and the returned `err`, which `resty` sets for transport and
decoding failures, not for HTTP error statuses. -/
structure RoundTrip where
  accrual : AccrualInfo
  StatusCode : Nat
  Status : String
  err : Option GoError
  deriving DecidableEq, Repr

/-- The method `AccrualClient.GetOrderInfo`, as a function of the round trip's outcome. -/
def GetOrderInfo (r : RoundTrip) : AccrualInfo × Option GoError :=
  if r.StatusCode = StatusTooManyRequests then
    (r.accrual, some .ErrTooManyRequests)
  else if stringsContains r.Status (StatusText StatusNoContent) then
    (r.accrual, some .ErrNoContent)
  else if r.err ≠ none then
    (r.accrual, r.err)
  else
    (r.accrual, none)

/-! ## Package `strconv` -/

def maxUint64 : Nat := 2 ^ 64 - 1

/-- The digit loop of `strconv.ParseUint(s, 10, 64)`, with the running value `n`
(a `uint64`). Returns the pair `(value, err)`. -/
def parseUintLoop : List Char → Nat → Nat × Option GoError
  | [], n => (n, none)
  | c :: cs, n =>
    if 48 ≤ c.toNat ∧ c.toNat ≤ 57 then
      let d := c.toNat - 48
      if n ≥ maxUint64 / 10 + 1 then
        (maxUint64, some .ErrRange)
      else
        let n10 := (n * 10) % 2 ^ 64
        let n1 := (n10 + d) % 2 ^ 64
        if n1 < n10 ∨ n1 > maxUint64 then
          (maxUint64, some .ErrRange)
        else
          parseUintLoop cs n1
    else
      (0, some .ErrSyntax)

/-- The call `strconv.ParseUint(s, 10, 64)`. -/
def ParseUint (s : List Char) : Nat × Option GoError :=
  if s = [] then (0, some .ErrSyntax) else parseUintLoop s 0

/-- The call `strconv.ParseInt(s, 10, 64)`. -/
def ParseInt (s : String) : Int × Option GoError :=
  match s.toList with
  | [] => (0, some .ErrSyntax)
  | c :: cs =>
    let neg : Bool := c = '-'
    let rest := if c = '+' ∨ c = '-' then cs else c :: cs
    let r := ParseUint rest
    if r.2 ≠ none ∧ r.2 ≠ some .ErrRange then
      (0, r.2)
    else
      let cutoff : Nat := 2 ^ 63
      if neg = false ∧ r.1 ≥ cutoff then
        (((cutoff - 1 : Nat) : Int), some .ErrRange)
      else if neg = true ∧ r.1 > cutoff then
        (-(cutoff : Int), some .ErrRange)
      else
        (if neg then -(r.1 : Int) else (r.1 : Int), none)

/-- The decimal digit `0..9` as a character. -/
def digitChar (d : Nat) : Char :=
  Char.ofNat (48 + d % 10)

/-- The decimal digits of `n`, most significant first; `fuel` bounds their number. -/
def formatDecimal : Nat → Nat → List Char
  | 0, _ => []
  | fuel + 1, n =>
    if n < 10 then [digitChar n]
    else formatDecimal fuel (n / 10) ++ [digitChar (n % 10)]

/-- The call `strconv.FormatInt(i, 10)` for an `int64` value `i` (at most 19 digits). -/
def FormatInt (i : Int) : String :=
  if i < 0 then String.mk ('-' :: formatDecimal 20 i.natAbs)
  else String.mk (formatDecimal 20 i.toNat)

/-! ## Order store (`internal/database/database.go`) -/

/-- A row of table `orders`, with the columns the engine reads or writes. -/
structure OrderRow where
  user_id : String
  status : String
  external_id : String
  amount : Option Float64
  deriving DecidableEq, Repr

/-- Ways the driver can fail during a `SELECT`: `Query` returns an error,
`rows.Scan` fails at the row with the given index, `rows.Err()` is non-nil. -/
structure QueryFaults where
  query : Option GoError
  scan : Option (Nat × GoError)
  rows : Option GoError
  deriving DecidableEq, Repr

/-- The query succeeds. -/
def QueryFaults.none : QueryFaults := ⟨Option.none, Option.none, Option.none⟩

/-- The `WHERE` clause `status not in ('INVALID', 'PROCESSED')`. -/
def inProgress (r : OrderRow) : Bool :=
  !(r.status = "INVALID" ∨ r.status = "PROCESSED")

/-- The scanning loop `for rows.Next() { ... }` of `GetOrdersInProgress`, at row index `i`. -/
def scanOrders (scan : Option (Nat × GoError)) : Nat → List OrderRow → List Order →
    List Order × Option GoError
  | _, [], orderList => (orderList, none)
  | i, r :: rs, orderList =>
    match scan with
    | some (j, e) =>
      if i = j then ([], some e)
      else scanOrders scan (i + 1) rs
        (orderList ++ [⟨r.external_id, r.status, r.amount.getD Float64.zero⟩])
    | none => scanOrders scan (i + 1) rs
        (orderList ++ [⟨r.external_id, r.status, r.amount.getD Float64.zero⟩])

/-- The method `Database.GetOrdersInProgress`. -/
def GetOrdersInProgress (f : QueryFaults) (orders : List OrderRow) : List Order × Option GoError :=
  match f.query with
  | some e => ([], some e)
  | none =>
    let r := scanOrders f.scan 0 (orders.filter inProgress) []
    if r.2 ≠ none then ([], r.2)
    else
      match f.rows with
      | some e => ([], some e)
      | none => (r.1, none)

/-- The loop `for _, order := range orders { ... }` of `GetOrderIDs`. -/
def orderIDsLoop : List Order → List String → List String × Option GoError
  | [], orderIDs => (orderIDs, none)
  | order :: rest, orderIDs =>
    let p := ParseInt order.ID
    if p.2 ≠ none then ([], p.2)
    else orderIDsLoop rest (orderIDs ++ [FormatInt p.1])

/-- The method `Database.GetOrderIDs`. -/
def GetOrderIDs (f : QueryFaults) (orders : List OrderRow) : List String × Option GoError :=
  let r := GetOrdersInProgress f orders
  if r.2 ≠ none then ([], r.2)
  else orderIDsLoop r.1 []

/-- Ways the driver can fail during the transaction of `UpdateOrder`. -/
structure TxFaults where
  begin : Option GoError
  exec : Option GoError
  rollback : Option GoError
  commit : Option GoError
  deriving DecidableEq, Repr

/-- Every statement of the transaction succeeds. -/
def TxFaults.none : TxFaults := ⟨Option.none, Option.none, Option.none, Option.none⟩

/-- Outcome of a store call: it returns `err` and leaves table `orders`, or the
process is terminated by `log.Fatalf`. -/
inductive UpdateResult where
  | returned (err : Option GoError) (orders : List OrderRow) : UpdateResult
  | fatal : UpdateResult
  deriving DecidableEq, Repr

/-- The statement `UPDATE orders SET status = $1, amount = $2 where external_id = $3`. -/
def sqlUpdate (o : AccrualInfo) (orders : List OrderRow) : List OrderRow :=
  orders.map fun r =>
    if r.external_id = o.Order then { r with status := o.Status, amount := some o.Accrual } else r

/-- The method `Database.UpdateOrder`. In the `Exec` branch the variable `err` is
reassigned by `err = tx.Rollback(ctx)`, so `return err` returns the rollback's result. -/
def UpdateOrder (f : TxFaults) (o : AccrualInfo) (orders : List OrderRow) : UpdateResult :=
  match f.begin with
  | some e => .returned (some e) orders
  | none =>
    match f.exec with
    | some _ =>
      match f.rollback with
      | some _ => .fatal
      | none => .returned none orders
    | none =>
      match f.commit with
      | some _ => .fatal
      | none => .returned none (sqlUpdate o orders)

/-- The method `Database.ApplyAccural`. -/
def ApplyAccural (f : TxFaults) (accrual : AccrualInfo) (orders : List OrderRow) : UpdateResult :=
  let order : AccrualInfo := { Order := accrual.Order, Accrual := accrual.Accrual, Status := accrual.Status }
  match UpdateOrder f order orders with
  | .returned (some err) t => .returned (some err) t
  | .returned none t => .returned none t
  | .fatal => .fatal

/-! ## Worker pool (`internal/async/worker_pool.go`) -/

def countWorker : Nat := 5
/-- The constant `retryTimeCheckNewOrders = 5 * time.Second`, in nanoseconds. -/
def retryTimeCheckNewOrders : Nat := 5 * 1000000000
/-- The constant `idleTimeout = time.Minute`, in nanoseconds. -/
def idleTimeout : Nat := 60 * 1000000000
/-- The constant `idleTimeoutNoOrders = time.Second`, in nanoseconds. -/
def idleTimeoutNoOrders : Nat := 1000000000

/-- The interface `database.Storage`, restricted to the two methods the pool
calls, over a store state `σ`. -/
structure Storage (σ : Type) where
  GetOrderIDs : σ → List String × Option GoError
  ApplyAccural : AccrualInfo → σ → Option GoError × σ

/-- Observable actions of the pool's goroutines. A pause channel is named by
the worker it belongs to. -/
inductive Effect where
  /-- A call of `log.Println` or `log.Printf` with this text or format. -/
  | log (format : String) : Effect
  /-- The call `p.storage.GetOrderIDs()`. -/
  | callGetOrderIDs : Effect
  /-- The send `p.orderIn <- ID`. -/
  | sendOrder (ID : String) : Effect
  /-- The call `p.client.GetOrderInfo(order)`. -/
  | callGetOrderInfo (order : String) : Effect
  /-- The call `p.storage.ApplyAccural(&accrual)`. -/
  | callApplyAccural (accrual : AccrualInfo) : Effect
  /-- The send `p.Err <- err`. -/
  | sendErr (err : GoError) : Effect
  /-- The statement `go func() { for _, pause := range pauses { ch <- struct{}{} } }()`:
  a goroutine is started that sends one signal on each listed channel, in order. -/
  | goBroadcast (pauses : List Nat) : Effect
  /-- The call `time.Sleep(d)`. -/
  | sleep (d : Nat) : Effect
  deriving DecidableEq, Repr

/-- The orders sent on `p.orderIn`, in order. -/
def sentOrders : List Effect → List String
  | [] => []
  | .sendOrder ID :: es => ID :: sentOrders es
  | _ :: es => sentOrders es

/-- The errors sent on `p.Err`, in order. -/
def sentErrs : List Effect → List GoError
  | [] => []
  | .sendErr e :: es => e :: sentErrs es
  | _ :: es => sentErrs es

/-- The arguments of the calls of `ApplyAccural`, in order. -/
def appliedAccruals : List Effect → List AccrualInfo
  | [] => []
  | .callApplyAccural a :: es => a :: appliedAccruals es
  | _ :: es => appliedAccruals es

/-- The number of calls of `GetOrderIDs`. -/
def countGetOrderIDs : List Effect → Nat
  | [] => 0
  | .callGetOrderIDs :: es => countGetOrderIDs es + 1
  | _ :: es => countGetOrderIDs es

/-- The pause signals issued: the channels of all started broadcasts, in order. -/
def pauseSignals : List Effect → List Nat
  | [] => []
  | .goBroadcast pauses :: es => pauses ++ pauseSignals es
  | _ :: es => pauseSignals es

/-- Whether a goroutine is still inside its loop. -/
inductive LoopStatus where
  | running : LoopStatus
  | exited : LoopStatus
  deriving DecidableEq, Repr

/-- The start-up loop of `Execute`: for `i = 0 .. countWorker - 1` make a pause
channel, start worker `i` on it and append the channel to `pauses`. -/
def startWorkers : Nat → Nat → List Nat → List Nat
  | 0, _, pauses => pauses
  | fuel + 1, i, pauses =>
    if i < countWorker then startWorkers fuel (i + 1) (pauses ++ [i]) else pauses

/-- The slice `pauses` after the start-up loop of `Execute`. -/
def pauses : List Nat := startWorkers countWorker 0 []

/-- One iteration of the discovery goroutine `for range ticker.C { ... }` of
`Execute`, in store state `s`. -/
def discoveryTick {σ : Type} (storage : Storage σ) (s : σ) : List Effect × LoopStatus :=
  let r := storage.GetOrderIDs s
  if r.2 ≠ none then
    ([.callGetOrderIDs, .log "error start workers of integration"], .exited)
  else if r.1.length = 0 then
    ([.callGetOrderIDs, .log "worker nothing to do, no orders in progress"], .running)
  else
    (.callGetOrderIDs :: r.1.map .sendOrder, .running)

/-- The discovery goroutine of `Execute` over successive ticks; `ticks` lists the
store state found at each tick. -/
def discoveryLoop {σ : Type} (storage : Storage σ) : List σ → List Effect × LoopStatus
  | [] => ([], .running)
  | s :: ticks =>
    match discoveryTick storage s with
    | (es, .exited) => (es, .exited)
    | (es, .running) =>
      let r := discoveryLoop storage ticks
      (es ++ r.1, r.2)

/-- One iteration of the supervisor loop `for err := range p.Err { ... }` of `Execute`. -/
def supervisorStep (pauses : List Nat) (err : GoError) : List Effect :=
  if errorsIs err .ErrTooManyRequests then
    [.log "error %s", .goBroadcast pauses]
  else
    [.log "error %s"]

/-- What a worker's `select` receives: an order from `p.orderIn`, together with
the outcome of the round trip its query will make, or a signal from `pause`. -/
inductive WorkerEvent where
  | order (order : String) (reply : RoundTrip) : WorkerEvent
  | pause : WorkerEvent
  deriving DecidableEq, Repr

/-- One iteration of the loop `for { select { ... } }` of `WorkerPool.worker`.
The `break` after a failed query leaves the `select`, so every branch ends the
iteration with the worker still in its loop. -/
def workerStep {σ : Type} (storage : Storage σ) (nameWorker : Nat) (ev : WorkerEvent) (s : σ) :
    List Effect × σ :=
  match ev with
  | .order order reply =>
    let q := GetOrderInfo reply
    match q.2 with
    | some err =>
      ([.log "worker %d, order %s send request to accrual services", .callGetOrderInfo order,
        .sendErr (workerError nameWorker err)], s)
    | none =>
      let a := storage.ApplyAccural q.1 s
      match a.1 with
      | some err =>
        ([.log "worker %d, order %s send request to accrual services", .callGetOrderInfo order,
          .log "worker %d, save %v in order", .callApplyAccural q.1,
          .sendErr (workerError nameWorker err)], a.2)
      | none =>
        ([.log "worker %d, order %s send request to accrual services", .callGetOrderInfo order,
          .log "worker %d, save %v in order", .callApplyAccural q.1], a.2)
  | .pause =>
    ([.log "worker %d do pause", .sleep idleTimeout], s)

/-- The worker goroutine over a finite sequence of received events. -/
def workerRun {σ : Type} (storage : Storage σ) (nameWorker : Nat) : List WorkerEvent → σ →
    List Effect × σ
  | [], s => ([], s)
  | ev :: evs, s =>
    let r := workerStep storage nameWorker ev s
    let r' := workerRun storage nameWorker evs r.2
    (r.1 ++ r'.1, r'.2)

/-! ### The work queue `orderIn` -/

/-- A buffered Go channel of strings: its capacity and the values it holds, oldest first. -/
structure Chan where
  capacity : Nat
  buf : List String
  deriving DecidableEq, Repr

/-- The channel `ordersIn := make(chan string, 10)` of `NewWorkerPool`. -/
def NewWorkerPool_orderIn : Chan := ⟨10, []⟩

/-- A send `ch <- v`: it completes when the buffer has room; otherwise (`none`)
the sender blocks. -/
def Chan.send (ch : Chan) (v : String) : Option Chan :=
  if ch.buf.length < ch.capacity then some { ch with buf := ch.buf ++ [v] } else none

/-- A receive `<-ch`: it completes when the buffer is non-empty; otherwise
(`none`) the receiver blocks. -/
def Chan.recv (ch : Chan) : Option (String × Chan) :=
  match ch.buf with
  | [] => none
  | v :: rest => some (v, { ch with buf := rest })

/-- The discovery goroutine inside `for _, OrderID := range ordersInProgress`,
the queue, and what the workers have dequeued so far. -/
structure QueueState where
  pending : List String
  orderIn : Chan
  dequeued : List String
  deriving DecidableEq, Repr

/-- Which goroutine the scheduler runs next: the discovery loop at its send, or
a worker at its receive. -/
inductive Turn where
  | discovery : Turn
  | worker : Turn
  deriving DecidableEq, Repr

/-- One scheduling step. A goroutine whose channel operation cannot complete
stays where it is. -/
def queueStep (q : QueueState) : Turn → QueueState
  | .discovery =>
    match q.pending with
    | [] => q
    | ID :: rest =>
      match q.orderIn.send ID with
      | some ch => { q with pending := rest, orderIn := ch }
      | none => q
  | .worker =>
    match q.orderIn.recv with
    | some (order, ch) => { q with orderIn := ch, dequeued := q.dequeued ++ [order] }
    | none => q

/-- The state after a schedule. -/
def queueRun (q : QueueState) (schedule : List Turn) : QueueState :=
  schedule.foldl queueStep q

/-- The schedule that lets a worker receive after every send. -/
def alternate : List String → List Turn
  | [] => []
  | _ :: rest => .discovery :: .worker :: alternate rest

/-! ## The store as a `Storage` -/

/-- The state behind a `*Database`: table `orders` and the faults the driver will
show on the next `SELECT` and in the next transaction (rollback and commit
succeed: a failure there ends the process in `log.Fatalf`). -/
structure DB where
  orders : List OrderRow
  query : QueryFaults
  begin : Option GoError
  exec : Option GoError
  deriving DecidableEq, Repr

/-- The type `*Database` as an implementation of `Storage`. -/
def Database : Storage DB where
  GetOrderIDs := fun s => GetOrderIDs s.query s.orders
  ApplyAccural := fun accrual s =>
    match ApplyAccural ⟨s.begin, s.exec, none, none⟩ accrual s.orders with
    | .returned err t => (err, { s with orders := t })
    | .fatal => (none, s)

/-! ## Order numbers (`internal/http/server/handlers/server_handler.go`) -/

/-- The loop `for i := len(order) - 1; i >= 0; i--` of `ValidateOrderID` over the
characters from right to left, with the running `sum` and `invert`; `none` is
the early `return false`. -/
def validateLoop : List Char → Nat → Bool → Option Nat
  | [], sum, _ => some sum
  | c :: cs, sum, invert =>
    if 48 ≤ c.toNat ∧ c.toNat ≤ 57 then
      let digit := c.toNat - 48
      let digit := if invert then (if digit * 2 > 9 then digit * 2 - 9 else digit * 2) else digit
      validateLoop cs (sum + digit) (!invert)
    else none

/-- The function `ValidateOrderID`. -/
def ValidateOrderID (order : String) : Bool :=
  match validateLoop order.toList.reverse 0 false with
  | some sum => sum % 10 = 0
  | none => false

/-! ## Concrete inputs -/

/-- The `float64` value `500.0`. -/
def f500 : Float64 := ⟨0x407F400000000000⟩

/-- A reply `500 Internal Server Error` with no transport error and no decoded body. -/
def reply500 : RoundTrip := ⟨⟨"", "", Float64.zero⟩, 500, "500 Internal Server Error", none⟩

/-- A reply `429 Too Many Requests`. -/
def reply429 : RoundTrip := ⟨⟨"", "", Float64.zero⟩, 429, "429 Too Many Requests", none⟩

/-- A reply `200 OK` that reports order 12345678903 as processed with accrual 500. -/
def reply200 : RoundTrip := ⟨⟨"12345678903", "PROCESSED", f500⟩, 200, "200 OK", none⟩

/-- A store with one new order, on a healthy connection. -/
def dbOneOrder : DB := ⟨[⟨"user-1", "NEW", "12345678903", none⟩], .none, none, none⟩

/-- The same store while the connection is down: the `SELECT` fails. -/
def dbDown : DB :=
  ⟨[⟨"user-1", "NEW", "12345678903", none⟩], ⟨some (.other "connection refused"), none, none⟩,
    none, none⟩

/-- A table whose only order has a number with a leading zero. -/
def ordersLeadingZero : List OrderRow := [⟨"user-1", "NEW", "018", none⟩]

/-- A table whose only order has a number of twenty digits. -/
def ordersTwentyDigits : List OrderRow := [⟨"user-1", "NEW", "12345678901234567894", none⟩]

/-- A table in which user 1 holds the processed order "18" and user 2 the new order "018". -/
def ordersShadowed : List OrderRow :=
  [⟨"user-1", "PROCESSED", "18", some f500⟩, ⟨"user-2", "NEW", "018", none⟩]

/-- A table of two orders of different users. -/
def ordersTwo : List OrderRow :=
  [⟨"user-1", "NEW", "12345678903", none⟩, ⟨"user-2", "PROCESSING", "2377225624", none⟩]

/-! ## The Luhn check in words -/

/-- Whether a character is one of the digits `0`..`9`. -/
def isDigit (c : Char) : Bool :=
  decide (48 ≤ c.toNat ∧ c.toNat ≤ 57)

/-- Whether a string consists only of the digits `0`..`9`. -/
def isDigitString (s : String) : Bool :=
  s.toList.all isDigit

/-- The contribution of a digit at a given distance from the right end: the digit
itself at an even distance, the doubled digit, minus 9 when the double exceeds
9, at an odd distance. -/
def luhnTerm (distance digit : Nat) : Nat :=
  if distance % 2 = 0 then digit
  else if digit * 2 > 9 then digit * 2 - 9 else digit * 2

/-- The sum of the contributions of the digits listed from right to left, the
first of them at the given distance from the right end. -/
def luhnSumFrom (distance : Nat) : List Char → Nat
  | [] => 0
  | c :: cs => luhnTerm distance (c.toNat - 48) + luhnSumFrom (distance + 1) cs

/-- The Luhn sum of a digit string, taken over its digits from right to left. -/
def luhnSum (s : String) : Nat :=
  luhnSumFrom 0 s.toList.reverse

/-- The Luhn check: the Luhn sum is divisible by 10. -/
def luhnValid (s : String) : Bool :=
  decide (luhnSum s % 10 = 0)

/-! ## The worker's control flow -/

/-- How a statement ends: it runs to its end, or it executes `break`. -/
inductive Control where
  | normal : Control
  | break : Control
  deriving DecidableEq, Repr

/-- The body of the `case` the worker's `select` has chosen. After a failed query
it ends in `break`. -/
def workerCase {σ : Type} (storage : Storage σ) (nameWorker : Nat) (ev : WorkerEvent) (s : σ) :
    List Effect × σ × Control :=
  match ev with
  | .order order reply =>
    let q := GetOrderInfo reply
    match q.2 with
    | some err =>
      ([.log "worker %d, order %s send request to accrual services", .callGetOrderInfo order,
        .sendErr (workerError nameWorker err)], s, .break)
    | none =>
      let a := storage.ApplyAccural q.1 s
      match a.1 with
      | some err =>
        ([.log "worker %d, order %s send request to accrual services", .callGetOrderInfo order,
          .log "worker %d, save %v in order", .callApplyAccural q.1,
          .sendErr (workerError nameWorker err)], a.2, .normal)
      | none =>
        ([.log "worker %d, order %s send request to accrual services", .callGetOrderInfo order,
          .log "worker %d, save %v in order", .callApplyAccural q.1], a.2, .normal)
  | .pause =>
    ([.log "worker %d do pause", .sleep idleTimeout], s, .normal)

/-- The statement `select { ... }` of the worker: an unlabelled `break` in a case
ends the `select`, which then has ended normally. -/
def workerSelect {σ : Type} (storage : Storage σ) (nameWorker : Nat) (ev : WorkerEvent) (s : σ) :
    List Effect × σ × Control :=
  let r := workerCase storage nameWorker ev s
  match r.2.2 with
  | .break => (r.1, r.2.1, .normal)
  | .normal => (r.1, r.2.1, .normal)

/-- The loop `for { select { ... } }` of the worker over the events it receives.
A body that ends in `break` would end the loop; with no event left the worker
waits in its `select`. -/
def workerLoop {σ : Type} (storage : Storage σ) (nameWorker : Nat) : List WorkerEvent → σ →
    List Effect × σ × LoopStatus
  | [], s => ([], s, .running)
  | ev :: evs, s =>
    let r := workerSelect storage nameWorker ev s
    match r.2.2 with
    | .break => (r.1, r.2.1, .exited)
    | .normal =>
      let r' := workerLoop storage nameWorker evs r.2.1
      (r.1 ++ r'.1, r'.2.1, r'.2.2)

/-- The goroutine of `WorkerPool.worker`: its loop, and whether the deferred
`close(pause)` has run, which it does when the function returns. -/
def workerGoroutine {σ : Type} (storage : Storage σ) (nameWorker : Nat) (evs : List WorkerEvent)
    (s : σ) : List Effect × σ × LoopStatus × Bool :=
  let r := workerLoop storage nameWorker evs s
  (r.1, r.2.1, r.2.2, decide (r.2.2 = .exited))

/-! ## Discovery cycles drained by the workers -/

/-- The workers receive the orders a tick has sent, one after the other: each
order goes to the worker named by the next handler, whose query makes the
handler's round trip. -/
def drain {σ : Type} (storage : Storage σ) : List String → List (Nat × RoundTrip) → σ →
    List Effect × σ
  | order :: orders, (nameWorker, reply) :: handlers, s =>
    let r := workerStep storage nameWorker (.order order reply) s
    let r' := drain storage orders handlers r.2
    (r.1 ++ r'.1, r'.2)
  | _, _, s => ([], s)

/-- One discovery cycle: a tick of the discovery loop, then the workers drain what
it sent. -/
def discoveryCycle {σ : Type} (storage : Storage σ) (handlers : List (Nat × RoundTrip)) (s : σ) :
    List Effect × σ :=
  let t := discoveryTick storage s
  let d := drain storage (sentOrders t.1) handlers s
  (t.1 ++ d.1, d.2)

/-- A reply `200 OK` that reports order 12345678903 as being processed. -/
def replyProcessing : RoundTrip :=
  ⟨⟨"12345678903", "PROCESSING", Float64.zero⟩, 200, "200 OK", none⟩

/-- A store whose only order is processed, on a healthy connection. -/
def dbProcessed : DB := ⟨[⟨"user-1", "PROCESSED", "12345678903", some f500⟩], .none, none, none⟩

/-! ## HTTP handlers (`internal/http/server/handlers/server_handler.go`) -/

/-- The response an `http.ResponseWriter` has produced so far: the status code
once the header has been written, the header fields and the body. -/
structure ResponseWriter where
  status : Option Nat
  header : List (String × String)
  body : String
  deriving DecidableEq, Repr

/-- A fresh response writer. -/
def ResponseWriter.new : ResponseWriter := ⟨none, [], ""⟩

/-- The call `w.Header().Set(key, value)`; it does not reach the response once the
header has been written. -/
def ResponseWriter.SetHeader (w : ResponseWriter) (key value : String) : ResponseWriter :=
  if w.status.isSome then w
  else { w with header := (key, value) :: w.header.filter fun kv => kv.1 ≠ key }

/-- The call `w.Header().Del(key)`. -/
def ResponseWriter.DelHeader (w : ResponseWriter) (key : String) : ResponseWriter :=
  if w.status.isSome then w
  else { w with header := w.header.filter fun kv => kv.1 ≠ key }

/-- The value of a header field of the response. -/
def ResponseWriter.GetHeader (w : ResponseWriter) (key : String) : Option String :=
  (w.header.find? fun kv => kv.1 = key).map fun kv => kv.2

/-- The call `w.WriteHeader(code)`; a second call is superfluous and changes nothing. -/
def ResponseWriter.WriteHeader (w : ResponseWriter) (code : Nat) : ResponseWriter :=
  if w.status.isSome then w else { w with status := some code }

/-- The call `w.Write(data)`; it writes the header with status 200 first when none
was written. -/
def ResponseWriter.Write (w : ResponseWriter) (data : String) : ResponseWriter :=
  { w.WriteHeader 200 with body := (w.WriteHeader 200).body ++ data }

/-- The function `http.Error(w, error, code)`. -/
def httpError (w : ResponseWriter) (error : String) (code : Nat) : ResponseWriter :=
  ((((w.DelHeader "Content-Length").SetHeader "Content-Type" "text/plain; charset=utf-8").SetHeader
    "X-Content-Type-Options" "nosniff").WriteHeader code).Write (error ++ "\n")

def StatusOK : Nat := 200
def StatusAccepted : Nat := 202
def StatusBadRequest : Nat := 400
def StatusConflict : Nat := 409
def StatusUnprocessableEntity : Nat := 422
def StatusInternalServerError : Nat := 500

/-- What reading and decoding a request body gives: the error of `buf.ReadFrom`,
and the value and the error `json.Unmarshal` leaves. -/
structure Body (α : Type) where
  readErr : Option GoError
  parsedData : α
  unmarshalErr : Option GoError

/-- The function `ParseJSON[DataType]`; `zero` is the zero value of `DataType`. -/
def ParseJSON {α : Type} (w : ResponseWriter) (body : Body α) (zero : α) :
    Bool × α × ResponseWriter :=
  match body.readErr with
  | some err =>
    (false, zero, httpError w ("Error while reading request body: " ++ err.Error) StatusBadRequest)
  | none =>
    match body.unmarshalErr with
    | some err =>
      (false, body.parsedData,
        httpError w ("Error while unmarshaling data " ++ err.Error) StatusBadRequest)
    | none => (true, body.parsedData, w)

/-- The struct `models.UserAuthData`. -/
structure UserAuthData where
  Login : String
  Password : String
  deriving DecidableEq, Repr

/-- The method `Handler.NewUserRegistration`. The results of `security.GenerateToken`
and `security.GetHashedPassword` are given; `addUser` is `h.storage.AddUser`
over a store state `τ`. Returns the response, the calls of `AddUser` and the
store state. -/
def NewUserRegistration {τ : Type} (w : ResponseWriter) (body : Body UserAuthData)
    (token : String × Option GoError) (hash : String × Option GoError)
    (addUser : UserAuthData → String → τ → (String × Option GoError) × τ) (s : τ) :
    ResponseWriter × List (UserAuthData × String) × τ :=
  let p := ParseJSON w body ⟨"", ""⟩
  if p.1 = false then (p.2.2, [], s)
  else if p.2.1.Login = "" ∨ p.2.1.Password = "" then
    (httpError p.2.2 "Request doesn't contain login or password" StatusBadRequest, [], s)
  else
    match token.2 with
    | some err =>
      (httpError p.2.2 ("Error while generating jwt token: " ++ err.Error)
        StatusInternalServerError, [], s)
    | none =>
      match hash.2 with
      | some err => (httpError p.2.2 err.Error StatusInternalServerError, [], s)
      | none =>
        let a := addUser p.2.1 hash.1 s
        match a.1.2 with
        | some _ =>
          (httpError p.2.2 "Error register user" StatusInternalServerError,
            [(p.2.1, hash.1)], a.2)
        | none =>
          ((((p.2.2.SetHeader "Authorization" ("Bearer " ++ token.1)).WriteHeader StatusOK).Write
            ""), [(p.2.1, hash.1)], a.2)

/-- The method `Handler.CreateNewOrder`. `orderID` is what `io.ReadAll(r.Body)`
returned (its error is only logged), `userID` the value the request context
holds, `addOrder` is `h.storage.AddOrder` over a store state `τ`. Returns the
response, the calls of `AddOrder` and the store state. -/
def CreateNewOrder {τ : Type} (w : ResponseWriter) (orderID userID : String)
    (addOrder : String → String → τ → (Bool × Option GoError) × τ) (s : τ) :
    ResponseWriter × List (String × String) × τ :=
  if ValidateOrderID orderID = false then
    (httpError w "Wrong order ID" StatusUnprocessableEntity, [], s)
  else
    let r := addOrder orderID userID s
    if r.1.1 = true ∧ r.1.2 ≠ none then
      (w.WriteHeader StatusOK, [(orderID, userID)], r.2)
    else if r.1.1 = false then
      (httpError (w.WriteHeader StatusConflict) "Error add order into db" StatusConflict,
        [(orderID, userID)], r.2)
    else
      ((w.WriteHeader StatusAccepted).Write "", [(orderID, userID)], r.2)

/-- The error `pgx.ErrNoRows`. -/
def ErrNoRows : GoError := .other "no rows in result set"

/-- Ways the driver can fail during `AddOrder`: in the `SELECT`, in the `INSERT`. -/
structure AddOrderFaults where
  select : Option GoError
  insert : Option GoError
  deriving DecidableEq, Repr

/-- The method `Database.AddOrder`. `scan` is what `row.Scan(&orderUserID)` leaves:
the user of the first order stored under `id` when there is one (`Valid`), and
the error otherwise. -/
def AddOrder (f : AddOrderFaults) (id u : String) (orders : List OrderRow) :
    (Bool × Option GoError) × List OrderRow :=
  let scan : Option String × Option GoError :=
    match f.select with
    | some e => (none, some e)
    | none =>
      match orders.find? fun r => r.external_id = id with
      | some r => (some r.user_id, none)
      | none => (none, some ErrNoRows)
  if scan.2 ≠ none ∧ scan.1.isSome then ((false, scan.2), orders)
  else
    match scan.1 with
    | some orderUserID =>
      if orderUserID = u then
        ((true, some (.other ("this order is exist the user, userID " ++ u ++ " for orderID " ++ id))),
          orders)
      else
        ((false,
          some (.other ("this order is exist another user, userID " ++ u ++ " for orderID " ++ id))),
          orders)
    | none =>
      match f.insert with
      | some e => ((false, some e), orders)
      | none => ((true, none), orders ++ [⟨u, "NEW", id, none⟩])

/-! ### Withdrawals -/

/-- Whether a `float64` is a NaN. -/
def Float64.isNaN (x : Float64) : Bool :=
  decide (x.bits / 2 ^ 52 % 2 ^ 11 = 2047 ∧ x.bits % 2 ^ 52 ≠ 0)

/-- A `float64` that is no NaN as a signed magnitude; the order of these integers
is the order of the numbers. -/
def Float64.key (x : Float64) : Int :=
  if x.bits / 2 ^ 63 % 2 = 1 then -((x.bits % 2 ^ 63 : Nat) : Int) else ((x.bits % 2 ^ 63 : Nat) : Int)

/-- The comparison `a < b` of two `float64` values. -/
def Float64.lt (a b : Float64) : Bool :=
  !a.isNaN && !b.isNaN && decide (a.key < b.key)

/-- The struct `models.UserBalance`. -/
structure UserBalance where
  Current : Float64
  Withdrawn : Float64
  deriving DecidableEq, Repr

/-- The struct `models.Withdrawal` (`ProcessedAt` is not used by the operations
embedded here). -/
structure Withdrawal where
  Order : String
  Sum : Float64
  deriving DecidableEq, Repr

/-- A row of table `withdrawal`, with the columns `AddWithdrawal` writes. -/
structure WithdrawalRow where
  user_id : String
  amount : Float64
  external_id : String
  deriving DecidableEq, Repr

/-- The method `Database.AddWithdrawal`. `balance` is what `d.GetUserBalance(ctx, u)`
returned, `insert` the error of the `INSERT`, if any. In the branch of the
insufficient balance the source returns the variable `err`, which holds the
error `GetUserBalance` returned. -/
def AddWithdrawal (balance : UserBalance × Option GoError) (insert : Option GoError) (u : String)
    (w : Withdrawal) (rows : List WithdrawalRow) : Option GoError × List WithdrawalRow :=
  let userBalance := balance.1
  let err := balance.2
  if err ≠ none then (err, rows)
  else if Float64.lt userBalance.Current w.Sum then (err, rows)
  else
    match insert with
    | some e => (some e, rows)
    | none => (none, rows ++ [⟨u, w.Sum, w.Order⟩])

/-- The method `Handler.ExecutePayment`; `addWithdrawal` is `h.storage.AddWithdrawal`
over a store state `τ`. Returns the response, the calls of `AddWithdrawal` and
the store state. -/
def ExecutePayment {τ : Type} (w : ResponseWriter) (body : Body Withdrawal) (userID : String)
    (addWithdrawal : String → Withdrawal → τ → Option GoError × τ) (s : τ) :
    ResponseWriter × List (String × Withdrawal) × τ :=
  let p := ParseJSON w body ⟨"", Float64.zero⟩
  if p.1 = false then (p.2.2, [], s)
  else if ValidateOrderID p.2.1.Order = false then
    (httpError p.2.2 "Wrong order ID" StatusUnprocessableEntity, [], s)
  else
    let a := addWithdrawal userID p.2.1 s
    match a.1 with
    | some _ =>
      (httpError p.2.2 "Error from AddWithdrawalForUser" StatusInternalServerError,
        [(userID, p.2.1)], a.2)
    | none => ((p.2.2.WriteHeader StatusOK).Write "", [(userID, p.2.1)], a.2)

/-- A user store that accepts every registration. -/
def addUserAlways : UserAuthData → String → Unit → (String × Option GoError) × Unit :=
  fun _ _ s => (("1", none), s)

/-- An empty request body: nothing to read, and `json.Unmarshal` fails. -/
def bodyEmpty : Body UserAuthData := ⟨none, ⟨"", ""⟩, some (.other "unexpected end of JSON input")⟩

/-- The body `{"login":"","password":"123"}`, decoded. -/
def bodyNoLogin : Body UserAuthData := ⟨none, ⟨"", "123"⟩, none⟩

/-- The body `{"order":"12345678903","sum":500}`, decoded. -/
def bodyWithdraw500 : Body Withdrawal := ⟨none, ⟨"12345678903", f500⟩, none⟩

/-- The balance of a user without orders and without withdrawals, as
`GetUserBalance` returns it. -/
def balanceZero : UserBalance × Option GoError := (⟨Float64.zero, Float64.zero⟩, none)

/-- Two discovery cycles on a healthy store, each drained by one worker: in the
first the accrual service reports order 12345678903 as being processed to
worker `w₁`, in the second as processed with accrual 500 to worker `w₂`. -/
def twoCycles (w₁ w₂ : Nat) (s : DB) : DB :=
  (discoveryCycle Database [(w₂, reply200)]
    (discoveryCycle Database [(w₁, replyProcessing)] s).2).2

/-! # Theorems -/

/-! ## Discovery loop: a failed listing -/

/-- A tick on which `GetOrderIDs` returns an error sends nothing and takes the
`break`: the goroutine leaves its loop, whatever the later ticks would find. -/
theorem discoveryLoop_error_exits {σ : Type} (storage : Storage σ) (s : σ) (ticks : List σ)
    (h : (storage.GetOrderIDs s).2 ≠ none) :
    discoveryLoop storage (s :: ticks) =
      ([.callGetOrderIDs, .log "error start workers of integration"], .exited) := by
  simp [discoveryLoop, discoveryTick, h]

/-- C1 (code evaluated at the failing input): with the connection down at the first
tick and restored at the second, the discovery loop calls `GetOrderIDs` once,
sends no order and has exited; the second tick, whose listing would succeed
with order 12345678903, is never served. -/
theorem discoveryLoop_stops_after_failed_listing :
    (Database.GetOrderIDs dbDown).2 ≠ none ∧
    Database.GetOrderIDs dbOneOrder = (["12345678903"], none) ∧
    (discoveryLoop Database [dbDown, dbOneOrder]).2 = .exited ∧
    countGetOrderIDs (discoveryLoop Database [dbDown, dbOneOrder]).1 = 1 ∧
    sentOrders (discoveryLoop Database [dbDown, dbOneOrder]).1 = [] := by
  decide

/-! ## Accrual client -/

/-- C2 (counterexample): for the reply `500 Internal Server Error`, a non-2xx
status received without transport error, `GetOrderInfo` returns a nil error. -/
theorem GetOrderInfo_status_500_returns_nil :
    ¬ ((reply500.StatusCode < 200 ∨ 300 ≤ reply500.StatusCode) →
        (GetOrderInfo reply500).2 ≠ none) := by
  decide

/-- C2 (amended): `GetOrderInfo` returns `ErrTooManyRequests` when the status code
is 429; otherwise `ErrNoContent` when the status text contains "No Content" (as
"204 No Content" does); otherwise the transport error when there is one, so
every transport failure gives a non-nil error; and it returns a nil error
exactly when the code is not 429, the status text does not contain
"No Content" and there is no transport error, whatever the status class. The
decoded value is returned unchanged in every case. -/
theorem GetOrderInfo_outcomes (r : RoundTrip) :
    (r.StatusCode = 429 → (GetOrderInfo r).2 = some .ErrTooManyRequests) ∧
    (r.StatusCode ≠ 429 → stringsContains r.Status "No Content" = true →
      (GetOrderInfo r).2 = some .ErrNoContent) ∧
    (r.StatusCode = 204 → r.Status = "204 No Content" →
      (GetOrderInfo r).2 = some .ErrNoContent) ∧
    (r.StatusCode ≠ 429 → stringsContains r.Status "No Content" = false →
      (GetOrderInfo r).2 = r.err) ∧
    (r.err ≠ none → (GetOrderInfo r).2 ≠ none) ∧
    ((GetOrderInfo r).2 = none ↔
      r.StatusCode ≠ 429 ∧ stringsContains r.Status "No Content" = false ∧ r.err = none) ∧
    (GetOrderInfo r).1 = r.accrual := by
  have hText : StatusText StatusNoContent = "No Content" := by decide
  unfold GetOrderInfo
  rw [hText]
  simp only [StatusTooManyRequests]
  by_cases h429 : r.StatusCode = 429
  · simp [h429]
  · by_cases hc : stringsContains r.Status "No Content" = true
    · simp [h429, hc]
    · have hc' : stringsContains r.Status "No Content" = false := by simpa using hc
      refine ⟨?_, ?_, ?_, ?_, ?_, ?_, ?_⟩
      · intro h; exact absurd h h429
      · intro _ h; rw [hc'] at h; cases h
      · intro _ h; rw [h] at hc'; exact absurd hc' (by decide)
      · intro _ _; cases he : r.err <;> simp [h429, hc', he]
      · intro he; cases he' : r.err <;> simp_all
      · cases he : r.err <;> simp [h429, hc', he]
      · cases he : r.err <;> simp [h429, hc', he]

/-! ## Listing the orders in progress -/

/-- C3 (code evaluated at the failing input): order number "018" passes
`ValidateOrderID` and is stored under that string; on a healthy connection
`GetOrderIDs` lists it as "18", the update keyed by "18" leaves the stored order
as it was; when another user's order "18" is already processed, the listing
consists of that processed order's identifier; and a stored twenty-digit
number makes the listing fail. -/
theorem GetOrderIDs_rewrites_leading_zero :
    ValidateOrderID "018" = true ∧
    GetOrderIDs .none ordersLeadingZero = (["18"], none) ∧
    ¬ "018" ∈ (GetOrderIDs .none ordersLeadingZero).1 ∧
    sqlUpdate ⟨"18", "PROCESSED", f500⟩ ordersLeadingZero = ordersLeadingZero ∧
    ValidateOrderID "18" = true ∧
    GetOrderIDs .none ordersShadowed = (["18"], none) ∧
    ValidateOrderID "12345678901234567894" = true ∧
    GetOrderIDs .none ordersTwentyDigits = ([], some .ErrRange) := by
  decide

/-! ### Identifiers that survive the listing -/

theorem digitChar_toNat (d : Nat) (hd : d < 10) : (digitChar d).toNat = 48 + d := by
  interval_cases d <;> rfl

theorem parseUintLoop_digit (d n : Nat) (rest : List Char) (hd : d < 10)
    (hn : n * 10 + d ≤ maxUint64) :
    parseUintLoop (digitChar d :: rest) n = parseUintLoop rest (n * 10 + d) := by
  have hmax : maxUint64 = 18446744073709551615 := by decide
  rw [hmax] at hn
  have h1 : (n * 10) % 2 ^ 64 = n * 10 := Nat.mod_eq_of_lt (by omega)
  have h2 : (n * 10 + d) % 2 ^ 64 = n * 10 + d := Nat.mod_eq_of_lt (by omega)
  have hc : ¬ (n ≥ maxUint64 / 10 + 1) := by rw [hmax]; omega
  have hr : ¬ (n * 10 + d < n * 10 ∨ n * 10 + d > maxUint64) := by rw [hmax]; omega
  simp only [parseUintLoop, digitChar_toNat d hd, h1]
  rw [if_pos (by omega), if_neg hc]
  simp only [Nat.add_sub_cancel_left, h2]
  rw [if_neg hr]

theorem parseUintLoop_formatDecimal (fuel : Nat) : ∀ (n : Nat) (rest : List Char),
    n < 10 ^ fuel → n ≤ maxUint64 →
    parseUintLoop (formatDecimal fuel n ++ rest) 0 = parseUintLoop rest n := by
  induction fuel with
  | zero => intro n rest h _; simp at h; subst h; simp [formatDecimal]
  | succ fuel ih =>
    intro n rest h hmax
    by_cases h10 : n < 10
    · simp only [formatDecimal, if_pos h10, List.singleton_append]
      rw [parseUintLoop_digit n 0 rest h10 (by omega)]
      simp
    · simp only [formatDecimal, if_neg h10, List.append_assoc, List.singleton_append]
      have hq : n / 10 < 10 ^ fuel := by
        rw [Nat.div_lt_iff_lt_mul (by norm_num)]
        rw [pow_succ] at h
        exact h
      rw [ih (n / 10) _ hq (by omega)]
      rw [parseUintLoop_digit (n % 10) (n / 10) rest (Nat.mod_lt _ (by norm_num)) (by omega)]
      congr 1
      omega

theorem formatDecimal_digits (fuel : Nat) : ∀ (n : Nat) (c : Char),
    c ∈ formatDecimal fuel n → 48 ≤ c.toNat ∧ c.toNat ≤ 57 := by
  induction fuel with
  | zero => intro n c h; simp [formatDecimal] at h
  | succ fuel ih =>
    intro n c h
    by_cases h10 : n < 10
    · simp only [formatDecimal, if_pos h10, List.mem_singleton] at h
      subst h
      rw [digitChar_toNat n h10]
      omega
    · simp only [formatDecimal, if_neg h10, List.mem_append, List.mem_singleton] at h
      rcases h with h | h
      · exact ih _ c h
      · subst h
        have := Nat.mod_lt n (show 10 > 0 by norm_num)
        rw [digitChar_toNat (n % 10) this]
        omega

theorem formatDecimal_ne_nil (fuel n : Nat) : formatDecimal (fuel + 1) n ≠ [] := by
  by_cases h10 : n < 10 <;> simp [formatDecimal, h10]

/-- Parsing the decimal numeral of a non-negative `int64` gives the value back. -/
theorem ParseInt_FormatInt (n : Nat) (hn : n < 2 ^ 63) :
    ParseInt (FormatInt (n : Int)) = ((n : Int), none) := by
  have hneg : ¬ ((n : Int) < 0) := by omega
  have hF : (FormatInt (n : Int)).toList = formatDecimal 20 n := by
    simp [FormatInt, hneg]
  have hparse : parseUintLoop (formatDecimal 20 n) 0 = (n, none) := by
    have h := parseUintLoop_formatDecimal 20 n [] (by norm_num at hn ⊢; omega)
      (by have : maxUint64 = 18446744073709551615 := by decide
          rw [this]; norm_num at hn; omega)
    simpa [parseUintLoop] using h
  unfold ParseInt
  rw [hF]
  cases hl : formatDecimal 20 n with
  | nil => exact absurd hl (formatDecimal_ne_nil 19 n)
  | cons c cs =>
    have hc := formatDecimal_digits 20 n c (by rw [hl]; exact List.mem_cons_self c cs)
    have hplus : c ≠ '+' := by
      intro h; subst h; revert hc; decide
    have hminus : c ≠ '-' := by
      intro h; subst h; revert hc; decide
    rw [hl] at hparse
    simp only [hplus, hminus, or_self, if_false, ParseUint, List.cons_ne_nil, hparse,
      decide_False, ne_eq, not_true_eq_false, false_and]
    have : n < 9223372036854775808 := by norm_num at hn; exact hn
    simp [this]

theorem scanOrders_no_fault (rows : List OrderRow) : ∀ (i : Nat) (orderList : List Order),
    scanOrders none i rows orderList =
      (orderList ++ rows.map fun r => ⟨r.external_id, r.status, r.amount.getD Float64.zero⟩,
        none) := by
  induction rows with
  | nil => intro i orderList; simp [scanOrders]
  | cons r rs ih => intro i orderList; simp [scanOrders, ih]

theorem orderIDsLoop_canonical (orders : List Order)
    (h : ∀ o, o ∈ orders → ∃ n : Nat, n < 2 ^ 63 ∧ o.ID = FormatInt (n : Int)) :
    ∀ orderIDs, orderIDsLoop orders orderIDs = (orderIDs ++ orders.map fun o => o.ID, none) := by
  induction orders with
  | nil => intro orderIDs; simp [orderIDsLoop]
  | cons o os ih =>
    intro orderIDs
    obtain ⟨n, hn, hid⟩ := h o (List.mem_cons_self o os)
    have hp : ParseInt o.ID = ((n : Int), none) := by rw [hid]; exact ParseInt_FormatInt n hn
    simp only [orderIDsLoop, hp, ne_eq, not_true_eq_false, if_false]
    rw [ih (fun o' ho' => h o' (List.mem_cons_of_mem o ho'))]
    simp [hid]

/-- On a healthy connection, when every order in progress is stored under the
decimal numeral of a non-negative `int64`, `GetOrderIDs` returns without error
exactly the stored identifiers of the orders in progress, in table order. -/
theorem GetOrderIDs_canonical (orders : List OrderRow)
    (h : ∀ r, r ∈ orders → inProgress r = true →
      ∃ n : Nat, n < 2 ^ 63 ∧ r.external_id = FormatInt (n : Int)) :
    GetOrderIDs .none orders =
      ((orders.filter inProgress).map (fun r => r.external_id), none) := by
  have hs := scanOrders_no_fault (orders.filter inProgress) 0 []
  have hl := orderIDsLoop_canonical
    ((orders.filter inProgress).map fun r => ⟨r.external_id, r.status, r.amount.getD Float64.zero⟩)
    (by
      intro o ho
      simp only [List.mem_map, List.mem_filter] at ho
      obtain ⟨r, ⟨hr, hp⟩, rfl⟩ := ho
      exact h r hr hp) []
  simp only [GetOrderIDs, GetOrdersInProgress, QueryFaults.none, hs, List.nil_append, ne_eq,
    not_true_eq_false, if_false, hl, List.map_map]
  rfl

/-! ## Worker -/

/-- C4: when the query of a dequeued order returns an error `e`, the worker sends
exactly one error on `p.Err`; that error is `fmt.Errorf("error worker %d %w",
nameWorker, e)`, so it carries the worker's name, unwraps to `e` and satisfies
`errors.Is(_, ErrTooManyRequests)` exactly when `e` does; `ApplyAccural` is not
called and the store is left as it was. -/
theorem worker_query_error {σ : Type} (storage : Storage σ) (nameWorker : Nat) (order : String)
    (reply : RoundTrip) (s : σ) (e : GoError) (h : (GetOrderInfo reply).2 = some e) :
    sentErrs (workerStep storage nameWorker (.order order reply) s).1 = [workerError nameWorker e] ∧
    (workerError nameWorker e).Unwrap = some e ∧
    (workerError nameWorker e).Error =
      "error worker " ++ toString nameWorker ++ " " ++ e.Error ∧
    errorsIs (workerError nameWorker e) .ErrTooManyRequests = errorsIs e .ErrTooManyRequests ∧
    appliedAccruals (workerStep storage nameWorker (.order order reply) s).1 = [] ∧
    (workerStep storage nameWorker (.order order reply) s).2 = s := by
  simp [workerStep, h, sentErrs, appliedAccruals, workerError, GoError.Unwrap, GoError.Error,
    errorsIs]

/-- C4 (witness): worker 3, order 12345678903, reply 429 on the one-order store. -/
theorem worker_query_error_witness :
    (GetOrderInfo reply429).2 = some .ErrTooManyRequests ∧
    sentErrs (workerStep Database 3 (.order "12345678903" reply429) dbOneOrder).1 =
      [workerError 3 .ErrTooManyRequests] ∧
    errorsIs (workerError 3 .ErrTooManyRequests) .ErrTooManyRequests = true ∧
    appliedAccruals (workerStep Database 3 (.order "12345678903" reply429) dbOneOrder).1 = [] ∧
    (workerStep Database 3 (.order "12345678903" reply429) dbOneOrder).2 = dbOneOrder :=
  have h := worker_query_error Database 3 "12345678903" reply429 dbOneOrder .ErrTooManyRequests
    (by decide)
  ⟨by decide, h.1, by decide, h.2.2.2.2.1, h.2.2.2.2.2⟩

/-- C5: when the query of a dequeued order succeeds with result `r`, the worker
calls `ApplyAccural` exactly once, with `r`; it sends no error when that call
returns nil and exactly one error, wrapping the returned one, when the call
fails; the store is left as that single call left it. -/
theorem worker_query_success {σ : Type} (storage : Storage σ) (nameWorker : Nat) (order : String)
    (reply : RoundTrip) (s : σ) (r : AccrualInfo) (h : GetOrderInfo reply = (r, none)) :
    appliedAccruals (workerStep storage nameWorker (.order order reply) s).1 = [r] ∧
    ((storage.ApplyAccural r s).1 = none →
      sentErrs (workerStep storage nameWorker (.order order reply) s).1 = []) ∧
    (∀ err, (storage.ApplyAccural r s).1 = some err →
      sentErrs (workerStep storage nameWorker (.order order reply) s).1 =
        [workerError nameWorker err]) ∧
    (sentErrs (workerStep storage nameWorker (.order order reply) s).1 ≠ [] ↔
      (storage.ApplyAccural r s).1 ≠ none) ∧
    (workerStep storage nameWorker (.order order reply) s).2 = (storage.ApplyAccural r s).2 := by
  cases ha : (storage.ApplyAccural r s).1 <;>
    simp [workerStep, h, ha, sentErrs, appliedAccruals]

/-- C5 (witness): worker 3, order 12345678903, reply 200 carrying a processed
result, on the one-order store. -/
theorem worker_query_success_witness :
    GetOrderInfo reply200 = (⟨"12345678903", "PROCESSED", f500⟩, none) ∧
    appliedAccruals (workerStep Database 3 (.order "12345678903" reply200) dbOneOrder).1 =
      [⟨"12345678903", "PROCESSED", f500⟩] ∧
    sentErrs (workerStep Database 3 (.order "12345678903" reply200) dbOneOrder).1 = [] :=
  have h := worker_query_success Database 3 "12345678903" reply200 dbOneOrder
    ⟨"12345678903", "PROCESSED", f500⟩ (by decide)
  ⟨by decide, h.1, h.2.1 (by decide)⟩

/-! ## Supervisor -/

/-- C6: for every error the supervisor receives, the pause signals it issues are
one for each of the `countWorker` = 5 pause channels, in the order the workers
were started, when `errors.Is(err, ErrTooManyRequests)` holds, and none otherwise. -/
theorem supervisor_pause_signals (err : GoError) :
    pauses = [0, 1, 2, 3, 4] ∧ pauses.length = countWorker ∧
    pauseSignals (supervisorStep pauses err) =
      (if errorsIs err .ErrTooManyRequests = true then pauses else []) ∧
    (∀ w, w < countWorker →
      (pauseSignals (supervisorStep pauses err)).count w =
        if errorsIs err .ErrTooManyRequests = true then 1 else 0) := by
  have hp : pauses = [0, 1, 2, 3, 4] := by decide
  refine ⟨hp, by decide, ?_, ?_⟩
  · cases h : errorsIs err .ErrTooManyRequests <;> simp [supervisorStep, h, pauseSignals]
  · intro w hw
    have hw' : w < 5 := hw
    cases h : errorsIs err .ErrTooManyRequests
    · simp [supervisorStep, h, pauseSignals]
    · simp only [supervisorStep, h, if_true, pauseSignals, List.append_nil, hp]
      interval_cases w <;> decide

/-! ## Persisting a result -/

theorem sqlUpdate_external_ids (o : AccrualInfo) (orders : List OrderRow) :
    (sqlUpdate o orders).map (fun r => r.external_id) = orders.map (fun r => r.external_id) := by
  induction orders with
  | nil => rfl
  | cons r rs ih =>
    simp only [sqlUpdate, List.map_cons] at ih ⊢
    rw [ih]
    by_cases h : r.external_id = o.Order <;> simp [h]

theorem sqlUpdate_user_ids (o : AccrualInfo) (orders : List OrderRow) :
    (sqlUpdate o orders).map (fun r => r.user_id) = orders.map (fun r => r.user_id) := by
  induction orders with
  | nil => rfl
  | cons r rs ih =>
    simp only [sqlUpdate, List.map_cons] at ih ⊢
    rw [ih]
    by_cases h : r.external_id = o.Order <;> simp [h]

theorem sqlUpdate_matching (o : AccrualInfo) (orders : List OrderRow) (r : OrderRow)
    (hr : r ∈ sqlUpdate o orders) (hid : r.external_id = o.Order) :
    r.status = o.Status ∧ r.amount = some o.Accrual := by
  simp only [sqlUpdate, List.mem_map] at hr
  obtain ⟨r₀, _, h⟩ := hr
  by_cases h₀ : r₀.external_id = o.Order
  · rw [if_pos h₀] at h
    subst h
    exact ⟨rfl, rfl⟩
  · rw [if_neg h₀] at h
    subst h
    exact absurd hid h₀

theorem sqlUpdate_others (o : AccrualInfo) (orders : List OrderRow) (r : OrderRow)
    (hid : r.external_id ≠ o.Order) : r ∈ sqlUpdate o orders ↔ r ∈ orders := by
  simp only [sqlUpdate, List.mem_map]
  constructor
  · rintro ⟨r₀, hmem, h⟩
    by_cases h₀ : r₀.external_id = o.Order
    · rw [if_pos h₀] at h
      subst h
      exact absurd h₀ hid
    · rw [if_neg h₀] at h
      subst h
      exact hmem
  · intro hmem
    exact ⟨r, hmem, if_neg hid⟩

theorem sqlUpdate_absent (o : AccrualInfo) (orders : List OrderRow)
    (h : ∀ r ∈ orders, r.external_id ≠ o.Order) : sqlUpdate o orders = orders := by
  induction orders with
  | nil => rfl
  | cons r rs ih =>
    have hr : r.external_id ≠ o.Order := h r (List.mem_cons_self r rs)
    have hrs : sqlUpdate o rs = rs := ih fun x hx => h x (List.mem_cons_of_mem r hx)
    simp only [sqlUpdate, List.map_cons] at hrs ⊢
    rw [hrs, if_neg hr]

theorem sqlUpdate_twice (a b : AccrualInfo) (orders : List OrderRow) (hab : a.Order = b.Order) :
    sqlUpdate b (sqlUpdate a orders) = sqlUpdate b orders := by
  induction orders with
  | nil => rfl
  | cons r rs ih =>
    simp only [sqlUpdate, List.map_cons] at ih ⊢
    rw [ih]
    by_cases h : r.external_id = b.Order
    · simp [hab, h]
    · simp [hab, h]

/-- When `ApplyAccural` returns nil after its `UPDATE` was executed, the table is
the updated one. -/
theorem ApplyAccural_executed (f : TxFaults) (a : AccrualInfo) (orders t : List OrderRow)
    (h : ApplyAccural f a orders = .returned none t) (hexec : f.exec = none) :
    t = sqlUpdate a orders := by
  unfold ApplyAccural UpdateOrder at h
  rw [hexec] at h
  cases hb : f.begin <;> cases hc : f.commit <;> simp [hb, hc] at h
  exact h.symm

/-- On a healthy connection `ApplyAccural` returns nil and leaves the updated table. -/
theorem ApplyAccural_healthy (a : AccrualInfo) (orders : List OrderRow) :
    ApplyAccural .none a orders = .returned none (sqlUpdate a orders) := by
  simp [ApplyAccural, UpdateOrder, TxFaults.none]

/-- A call of `ApplyAccural` that returns left the table as it was or updated it. -/
theorem ApplyAccural_returned (f : TxFaults) (a : AccrualInfo) (orders t : List OrderRow)
    (e : Option GoError) (h : ApplyAccural f a orders = .returned e t) :
    t = orders ∨ t = sqlUpdate a orders := by
  unfold ApplyAccural UpdateOrder at h
  cases hb : f.begin <;> cases hx : f.exec <;> cases hr : f.rollback <;> cases hc : f.commit <;>
    simp [hb, hx, hr, hc] at h <;> simp [h]

/-- C8 (counterexample): on the table holding only order 12345678903, a successful
`ApplyAccural` for order 2377225624 returns nil and no order with that
identifier is in the table afterwards. -/
theorem ApplyAccural_does_not_insert :
    ApplyAccural .none ⟨"2377225624", "PROCESSED", f500⟩ dbOneOrder.orders =
      .returned none dbOneOrder.orders ∧
    ¬ ∃ t, ApplyAccural .none ⟨"2377225624", "PROCESSED", f500⟩ dbOneOrder.orders =
        .returned none t ∧
      ∃ r, r ∈ t ∧ r.external_id = "2377225624" ∧ r.status = "PROCESSED" ∧ r.amount = some f500 := by
  have hv : ApplyAccural .none ⟨"2377225624", "PROCESSED", f500⟩ dbOneOrder.orders =
      .returned none dbOneOrder.orders := by decide
  refine ⟨hv, ?_⟩
  rintro ⟨t, ht, r, hr, hid, -⟩
  rw [hv] at ht
  injection ht with _ ht
  subst ht
  simp only [dbOneOrder, List.mem_singleton] at hr
  subst hr
  revert hid
  decide

/-- C8 (amended): when `ApplyAccural(a)` returns nil and its `UPDATE` statement was
executed, the table has the same rows under the same identifiers and users as
before (nothing is inserted or deleted), every order stored under `a.Order` has
status `a.Status` and amount `a.Accrual`, every other order is as it was, and
when no order is stored under `a.Order` the table is unchanged. -/
theorem ApplyAccural_overwrites_existing (f : TxFaults) (a : AccrualInfo)
    (orders t : List OrderRow) (h : ApplyAccural f a orders = .returned none t)
    (hexec : f.exec = none) :
    t.map (fun r => r.external_id) = orders.map (fun r => r.external_id) ∧
    t.map (fun r => r.user_id) = orders.map (fun r => r.user_id) ∧
    (∀ r, r ∈ t → r.external_id = a.Order → r.status = a.Status ∧ r.amount = some a.Accrual) ∧
    ((∃ r, r ∈ orders ∧ r.external_id = a.Order) →
      ∃ r, r ∈ t ∧ r.external_id = a.Order ∧ r.status = a.Status ∧ r.amount = some a.Accrual) ∧
    (∀ r, r.external_id ≠ a.Order → (r ∈ t ↔ r ∈ orders)) ∧
    ((∀ r, r ∈ orders → r.external_id ≠ a.Order) → t = orders) := by
  have ht : t = sqlUpdate a orders := ApplyAccural_executed f a orders t h hexec
  subst ht
  refine ⟨sqlUpdate_external_ids a orders, sqlUpdate_user_ids a orders,
    fun r hr hid => sqlUpdate_matching a orders r hr hid, ?_,
    fun r hid => sqlUpdate_others a orders r hid, fun habs => sqlUpdate_absent a orders habs⟩
  rintro ⟨r, hr, hid⟩
  refine ⟨{ r with status := a.Status, amount := some a.Accrual }, ?_, hid, rfl, rfl⟩
  simp only [sqlUpdate, List.mem_map]
  exact ⟨r, hr, if_pos hid⟩

/-- C8 (witness): the processed result for order 12345678903 applied to the table of
two orders on a healthy connection. -/
theorem ApplyAccural_overwrites_existing_witness :
    ApplyAccural .none ⟨"12345678903", "PROCESSED", f500⟩ ordersTwo =
      .returned none
        [⟨"user-1", "PROCESSED", "12345678903", some f500⟩,
         ⟨"user-2", "PROCESSING", "2377225624", none⟩] ∧
    ∀ r, r ∈ [(⟨"user-1", "PROCESSED", "12345678903", some f500⟩ : OrderRow),
        ⟨"user-2", "PROCESSING", "2377225624", none⟩] →
      r.external_id = "12345678903" → r.status = "PROCESSED" ∧ r.amount = some f500 :=
  ⟨by decide,
   (ApplyAccural_overwrites_existing .none ⟨"12345678903", "PROCESSED", f500⟩ ordersTwo
      [⟨"user-1", "PROCESSED", "12345678903", some f500⟩,
       ⟨"user-2", "PROCESSING", "2377225624", none⟩] (by decide) (by decide)).2.2.1⟩

/-- C9: persistence is last-write-wins per order. For results `a` and `b` of the same
order, once a call `ApplyAccural(a)` has returned (with or without an error),
a following `ApplyAccural(b)` on a healthy connection leaves the same
table as `ApplyAccural(b)` alone: it returns nil, every order stored under
that identifier carries `b`, and every other order is as it was before both. -/
theorem ApplyAccural_last_write_wins (orders t₁ : List OrderRow) (a b : AccrualInfo)
    (fa : TxFaults) (ea : Option GoError) (hab : a.Order = b.Order)
    (ha : ApplyAccural fa a orders = .returned ea t₁) :
    ApplyAccural .none b t₁ = ApplyAccural .none b orders ∧
    ∃ t₂, ApplyAccural .none b orders = .returned none t₂ ∧
      t₂.map (fun r => r.external_id) = orders.map (fun r => r.external_id) ∧
      (∀ r, r ∈ t₂ → r.external_id = b.Order → r.status = b.Status ∧ r.amount = some b.Accrual) ∧
      (∀ r, r.external_id ≠ b.Order → (r ∈ t₂ ↔ r ∈ orders)) := by
  constructor
  · rw [ApplyAccural_healthy, ApplyAccural_healthy]
    rcases ApplyAccural_returned fa a orders t₁ ea ha with h | h
    · rw [h]
    · rw [h, sqlUpdate_twice a b orders hab]
  · exact ⟨sqlUpdate b orders, ApplyAccural_healthy b orders, sqlUpdate_external_ids b orders,
      fun r hr hid => sqlUpdate_matching b orders r hr hid,
      fun r hid => sqlUpdate_others b orders r hid⟩

/-- C9 (witness): order 12345678903 reported first as processing, then as processed
with accrual 500, on the table of two orders. -/
theorem ApplyAccural_last_write_wins_witness :
    ApplyAccural .none ⟨"12345678903", "PROCESSED", f500⟩
        [⟨"user-1", "PROCESSING", "12345678903", some Float64.zero⟩,
         ⟨"user-2", "PROCESSING", "2377225624", none⟩] =
      ApplyAccural .none ⟨"12345678903", "PROCESSED", f500⟩ ordersTwo :=
  (ApplyAccural_last_write_wins ordersTwo
    [⟨"user-1", "PROCESSING", "12345678903", some Float64.zero⟩,
     ⟨"user-2", "PROCESSING", "2377225624", none⟩]
    ⟨"12345678903", "PROCESSING", Float64.zero⟩ ⟨"12345678903", "PROCESSED", f500⟩
    .none none (by decide) (by decide)).1

/-! ## Discovery loop: a successful listing -/

theorem sentOrders_map_sendOrder (L : List String) : sentOrders (L.map .sendOrder) = L := by
  induction L with
  | nil => rfl
  | cons x xs ih => simp [sentOrders, ih]

/-- A scheduling step neither loses nor duplicates nor reorders an order, and
keeps the buffer within its capacity. -/
theorem queueStep_conserves (q : QueueState) (t : Turn) :
    (queueStep q t).dequeued ++ (queueStep q t).orderIn.buf ++ (queueStep q t).pending =
      q.dequeued ++ q.orderIn.buf ++ q.pending ∧
    (queueStep q t).orderIn.capacity = q.orderIn.capacity ∧
    (q.orderIn.buf.length ≤ q.orderIn.capacity →
      (queueStep q t).orderIn.buf.length ≤ (queueStep q t).orderIn.capacity) := by
  cases t with
  | discovery =>
    cases hp : q.pending with
    | nil => simp [queueStep, hp]
    | cons ID rest =>
      by_cases hroom : q.orderIn.buf.length < q.orderIn.capacity
      · simp only [queueStep, hp, Chan.send, if_pos hroom]
        refine ⟨by simp, trivial, fun _ => ?_⟩
        simp only [List.length_append, List.length_singleton]
        omega
      · simp only [queueStep, hp, Chan.send, if_neg hroom]
        exact ⟨trivial, trivial, fun h => h⟩
  | worker =>
    cases hb : q.orderIn.buf with
    | nil => simp [queueStep, Chan.recv, hb]
    | cons v rest =>
      simp only [queueStep, Chan.recv, hb]
      refine ⟨by simp, trivial, fun h => ?_⟩
      simp only [List.length_cons] at h
      omega

theorem queueRun_conserves (schedule : List Turn) (q : QueueState) :
    (queueRun q schedule).dequeued ++ (queueRun q schedule).orderIn.buf ++
        (queueRun q schedule).pending =
      q.dequeued ++ q.orderIn.buf ++ q.pending ∧
    (queueRun q schedule).orderIn.capacity = q.orderIn.capacity ∧
    (q.orderIn.buf.length ≤ q.orderIn.capacity →
      (queueRun q schedule).orderIn.buf.length ≤ (queueRun q schedule).orderIn.capacity) := by
  induction schedule generalizing q with
  | nil => exact ⟨rfl, rfl, fun h => h⟩
  | cons t ts ih =>
    have h₁ := queueStep_conserves q t
    have h₂ := ih (queueStep q t)
    simp only [queueRun, List.foldl_cons] at h₂ ⊢
    exact ⟨h₂.1.trans h₁.1, h₂.2.1.trans h₁.2.1, fun h => h₂.2.2 (h₁.2.2 h)⟩

theorem queueRun_append (q : QueueState) (s₁ s₂ : List Turn) :
    queueRun q (s₁ ++ s₂) = queueRun (queueRun q s₁) s₂ := by
  simp [queueRun, List.foldl_append]

theorem queueRun_drain (L buf dequeued : List String) :
    queueRun ⟨L, ⟨10, buf⟩, dequeued⟩ (List.replicate buf.length .worker) =
      ⟨L, NewWorkerPool_orderIn, dequeued ++ buf⟩ := by
  induction buf generalizing dequeued with
  | nil => simp [queueRun, NewWorkerPool_orderIn]
  | cons x xs ih =>
    have h := ih (dequeued ++ [x])
    simp only [queueRun, List.length_cons, List.replicate_succ, List.foldl_cons] at h ⊢
    have hstep : queueStep ⟨L, ⟨10, x :: xs⟩, dequeued⟩ .worker =
        ⟨L, ⟨10, xs⟩, dequeued ++ [x]⟩ := by
      simp [queueStep, Chan.recv]
    rw [hstep, h]
    simp

theorem queueRun_alternate (L dequeued : List String) :
    queueRun ⟨L, NewWorkerPool_orderIn, dequeued⟩ (alternate L) =
      ⟨[], NewWorkerPool_orderIn, dequeued ++ L⟩ := by
  induction L generalizing dequeued with
  | nil => simp [queueRun, alternate]
  | cons x xs ih =>
    have h := ih (dequeued ++ [x])
    simp only [queueRun, alternate, List.foldl_cons] at h ⊢
    have hstep : queueStep (queueStep ⟨x :: xs, NewWorkerPool_orderIn, dequeued⟩ .discovery) .worker =
        ⟨xs, NewWorkerPool_orderIn, dequeued ++ [x]⟩ := by
      simp [queueStep, Chan.send, Chan.recv, NewWorkerPool_orderIn]
    rw [hstep, h]
    simp

/-- C10: on a tick on which `GetOrderIDs` succeeds with list `L`, the discovery loop
sends on `orderIn` exactly the elements of `L`, each once and in the order of
`L`, and is still in its loop, so the next tick is served. On the queue of
capacity 10, whatever it still holds from earlier ticks, under every
interleaving of the loop's sends with the workers' receives, what has been
dequeued, what is buffered and what is still to be sent make up the earlier
content followed by `L`, in order, and the buffer holds at most 10 orders; a
send on a full queue leaves the loop at that send with the order still to be
sent; and there is an interleaving after which the workers have dequeued all
of it. -/
theorem discoveryTick_sends_all {σ : Type} (storage : Storage σ) (s : σ) (L : List String)
    (h : storage.GetOrderIDs s = (L, none)) :
    sentOrders (discoveryTick storage s).1 = L ∧
    (discoveryTick storage s).2 = .running ∧
    (∀ ticks, discoveryLoop storage (s :: ticks) =
      ((discoveryTick storage s).1 ++ (discoveryLoop storage ticks).1,
        (discoveryLoop storage ticks).2)) ∧
    NewWorkerPool_orderIn = ⟨10, []⟩ ∧
    (∀ (buf : List String) (schedule : List Turn), buf.length ≤ 10 →
      (queueRun ⟨L, ⟨10, buf⟩, []⟩ schedule).dequeued ++
          (queueRun ⟨L, ⟨10, buf⟩, []⟩ schedule).orderIn.buf ++
          (queueRun ⟨L, ⟨10, buf⟩, []⟩ schedule).pending = buf ++ L ∧
      (queueRun ⟨L, ⟨10, buf⟩, []⟩ schedule).orderIn.buf.length ≤ 10) ∧
    (∀ q : QueueState, q.orderIn.capacity ≤ q.orderIn.buf.length →
      queueStep q .discovery = q) ∧
    (∀ buf : List String, ∃ schedule,
      queueRun ⟨L, ⟨10, buf⟩, []⟩ schedule = ⟨[], ⟨10, []⟩, buf ++ L⟩) := by
  have hrun : (discoveryTick storage s).2 = .running := by
    unfold discoveryTick
    rw [h]
    by_cases hL : L.length = 0 <;> simp [hL]
  refine ⟨?_, hrun, ?_, rfl, ?_, ?_, ?_⟩
  · unfold discoveryTick
    rw [h]
    by_cases hL : L.length = 0
    · have : L = [] := List.length_eq_zero.mp hL
      subst this
      simp [sentOrders]
    · simp [hL, sentOrders, sentOrders_map_sendOrder]
  · intro ticks
    cases hd : discoveryTick storage s with
    | mk es st =>
      rw [hd] at hrun
      simp only at hrun
      subst hrun
      simp [discoveryLoop, hd]
  · intro buf schedule hbuf
    have hc := queueRun_conserves schedule ⟨L, ⟨10, buf⟩, []⟩
    refine ⟨by simpa using hc.1, ?_⟩
    have hcap := hc.2.2 hbuf
    rw [hc.2.1] at hcap
    exact hcap
  · intro q hfull
    cases hp : q.pending with
    | nil => simp [queueStep, hp]
    | cons ID rest =>
      have : ¬ q.orderIn.buf.length < q.orderIn.capacity := by omega
      simp [queueStep, hp, Chan.send, this]
  · intro buf
    refine ⟨List.replicate buf.length .worker ++ alternate L, ?_⟩
    rw [queueRun_append, queueRun_drain, queueRun_alternate]
    simp [NewWorkerPool_orderIn]

/-- C10 (witness): the one-order store on a healthy connection lists order
12345678903, which the tick sends once. -/
theorem discoveryTick_sends_all_witness :
    Database.GetOrderIDs dbOneOrder = (["12345678903"], none) ∧
    sentOrders (discoveryTick Database dbOneOrder).1 = ["12345678903"] ∧
    (discoveryTick Database dbOneOrder).2 = .running :=
  have h := discoveryTick_sends_all Database dbOneOrder ["12345678903"] (by decide)
  ⟨by decide, h.1, h.2.1⟩

/-! ## Order numbers -/

/-- On digits the loop of `ValidateOrderID` adds up the Luhn contributions, `invert`
telling whether the next distance is odd. -/
theorem validateLoop_digits (cs : List Char) : ∀ (sum distance : Nat) (invert : Bool),
    (∀ c, c ∈ cs → isDigit c = true) → invert = decide (distance % 2 = 1) →
    validateLoop cs sum invert = some (sum + luhnSumFrom distance cs) := by
  induction cs with
  | nil => intro sum distance invert _ _; simp [validateLoop, luhnSumFrom]
  | cons c cs ih =>
    intro sum distance invert hd hinv
    have hc : 48 ≤ c.toNat ∧ c.toNat ≤ 57 := by
      have := hd c (List.mem_cons_self c cs)
      simpa [isDigit] using this
    have ih' := ih (sum + luhnTerm distance (c.toNat - 48)) (distance + 1) (!invert)
      (fun x hx => hd x (List.mem_cons_of_mem c hx))
      (by subst hinv; rcases Nat.mod_two_eq_zero_or_one distance with h | h <;> simp [h] <;> omega)
    have hterm : (if invert = true then
          (if (c.toNat - 48) * 2 > 9 then (c.toNat - 48) * 2 - 9 else (c.toNat - 48) * 2)
        else c.toNat - 48) = luhnTerm distance (c.toNat - 48) := by
      subst hinv
      rcases Nat.mod_two_eq_zero_or_one distance with h | h <;> simp [luhnTerm, h]
    simp only [validateLoop, if_pos hc, hterm, luhnSumFrom]
    rw [ih', Nat.add_assoc]

/-- A character that is no digit makes the loop of `ValidateOrderID` return early. -/
theorem validateLoop_non_digit (cs : List Char) : ∀ (sum : Nat) (invert : Bool),
    (∃ c, c ∈ cs ∧ isDigit c = false) → validateLoop cs sum invert = none := by
  induction cs with
  | nil => intro _ _ h; obtain ⟨c, hc, _⟩ := h; cases hc
  | cons c cs ih =>
    intro sum invert h
    by_cases hc : 48 ≤ c.toNat ∧ c.toNat ≤ 57
    · simp only [validateLoop, if_pos hc]
      apply ih
      obtain ⟨x, hx, hxd⟩ := h
      rcases List.mem_cons.mp hx with rfl | hx'
      · simp [isDigit, hc] at hxd
      · exact ⟨x, hx', hxd⟩
    · simp only [validateLoop, if_neg hc]

/-- On a string of digits `ValidateOrderID` tests the Luhn sum for divisibility by 10. -/
theorem ValidateOrderID_luhnSum (s : String) (h : isDigitString s = true) :
    ValidateOrderID s = decide (luhnSum s % 10 = 0) := by
  have hd : ∀ c, c ∈ s.toList.reverse → isDigit c = true := by
    intro c hc
    simp only [isDigitString, List.all_eq_true] at h
    exact h c (List.mem_reverse.mp hc)
  have hl := validateLoop_digits s.toList.reverse 0 0 false hd (by decide)
  simp only [Nat.zero_add] at hl
  unfold ValidateOrderID luhnSum
  rw [hl]

/-- C13: `ValidateOrderID` implements the Luhn check: on every string of digits it
returns true exactly when the sum, over the digits from right to left, of each
digit at an even distance from the right end and of each doubled digit (minus
9 when the double exceeds 9) at an odd distance is divisible by 10. -/
theorem ValidateOrderID_is_luhn (s : String) (h : isDigitString s = true) :
    ValidateOrderID s = luhnValid s ∧
    (ValidateOrderID s = true ↔ luhnSum s % 10 = 0) := by
  rw [ValidateOrderID_luhnSum s h]
  simp [luhnValid]

/-- C13 (witness): "12345678903" is accepted; "124" and "3743" are rejected. -/
theorem ValidateOrderID_is_luhn_witness :
    isDigitString "12345678903" = true ∧
    ValidateOrderID "12345678903" = luhnValid "12345678903" ∧
    ValidateOrderID "12345678903" = true ∧
    ValidateOrderID "124" = false ∧ ValidateOrderID "3743" = false :=
  ⟨by decide, (ValidateOrderID_is_luhn "12345678903" (by decide)).1, by decide, by decide,
    by decide⟩

/-- C14: a string that contains a character other than a digit `0`..`9` is rejected
by `ValidateOrderID`, whatever its other characters are. -/
theorem ValidateOrderID_rejects_non_digit (s : String) (c : Char) (hc : c ∈ s.toList)
    (hnd : isDigit c = false) : ValidateOrderID s = false := by
  have := validateLoop_non_digit s.toList.reverse 0 false ⟨c, List.mem_reverse.mpr hc, hnd⟩
  unfold ValidateOrderID
  rw [this]

/-- C14 (witness): the sign of "-5" makes it rejected, and so are the letters of
"SomeText". -/
theorem ValidateOrderID_rejects_non_digit_witness :
    ValidateOrderID "-5" = false ∧ ValidateOrderID "SomeText" = false :=
  ⟨ValidateOrderID_rejects_non_digit "-5" '-' (by decide) (by decide),
   ValidateOrderID_rejects_non_digit "SomeText" 'S' (by decide) (by decide)⟩

theorem luhnSumFrom_append (a b : List Char) : ∀ distance,
    luhnSumFrom distance (a ++ b) = luhnSumFrom distance a + luhnSumFrom (distance + a.length) b := by
  induction a with
  | nil => intro distance; simp [luhnSumFrom]
  | cons x xs ih =>
    intro distance
    rw [List.cons_append]
    simp only [luhnSumFrom]
    rw [ih, List.length_cons]
    have : distance + 1 + xs.length = distance + (xs.length + 1) := by omega
    rw [this, Nat.add_assoc]

/-- At a fixed distance the contribution determines the digit, and it is below 10. -/
theorem luhnTerm_injective (distance d d' : Nat) (hd : d < 10) (hd' : d' < 10)
    (h : luhnTerm distance d % 10 = luhnTerm distance d' % 10) : d = d' := by
  unfold luhnTerm at h
  split at h
  · omega
  · split at h <;> split at h <;> omega

/-- Replacing one digit of an accepted digit string by a different digit gives a
rejected string: the form with the string cut at the replaced digit. -/
theorem ValidateOrderID_single_digit_cut (pre post : List Char) (c c' : Char)
    (hpre : ∀ x, x ∈ pre → isDigit x = true) (hpost : ∀ x, x ∈ post → isDigit x = true)
    (hc : isDigit c = true) (hc' : isDigit c' = true) (hne : c ≠ c')
    (hacc : ValidateOrderID (String.mk (pre ++ c :: post)) = true) :
    ValidateOrderID (String.mk (pre ++ c' :: post)) = false := by
  have hall : ∀ y : Char, isDigit y = true →
      isDigitString (String.mk (pre ++ y :: post)) = true := by
    intro y hy
    show (pre ++ y :: post).all isDigit = true
    rw [List.all_eq_true]
    intro x hx
    rcases List.mem_append.mp hx with hx | hx
    · exact hpre x hx
    · rcases List.mem_cons.mp hx with hx | hx
      · rw [hx]; exact hy
      · exact hpost x hx
  have hsum : ∀ y : Char, luhnSum (String.mk (pre ++ y :: post)) =
      luhnSumFrom 0 post.reverse + (luhnTerm post.length (y.toNat - 48) +
        luhnSumFrom (post.length + 1) pre.reverse) := by
    intro y
    show luhnSumFrom 0 (pre ++ y :: post).reverse = _
    rw [List.reverse_append, List.reverse_cons, List.append_assoc, luhnSumFrom_append]
    simp [luhnSumFrom]
  have h₁ : luhnSum (String.mk (pre ++ c :: post)) % 10 = 0 := by
    rw [ValidateOrderID_luhnSum _ (hall c hc)] at hacc
    simpa using hacc
  by_contra hcon
  have hacc' : ValidateOrderID (String.mk (pre ++ c' :: post)) = true := by
    simpa using hcon
  have h₂ : luhnSum (String.mk (pre ++ c' :: post)) % 10 = 0 := by
    rw [ValidateOrderID_luhnSum _ (hall c' hc')] at hacc'
    simpa using hacc'
  rw [hsum] at h₁ h₂
  have hcd : 48 ≤ c.toNat ∧ c.toNat ≤ 57 := by simpa [isDigit] using hc
  have hcd' : 48 ≤ c'.toNat ∧ c'.toNat ≤ 57 := by simpa [isDigit] using hc'
  have hterm : luhnTerm post.length (c.toNat - 48) % 10 =
      luhnTerm post.length (c'.toNat - 48) % 10 := by omega
  have hdig := luhnTerm_injective post.length _ _ (by omega) (by omega) hterm
  have hnat : c.toNat = c'.toNat := by omega
  apply hne
  rw [← Char.ofNat_toNat c, ← Char.ofNat_toNat c', hnat]

/-- C19: `ValidateOrderID` detects every single-digit error: for every digit string `s`
it accepts, every position `i` of `s` and every digit `d` other than the digit
of `s` at `i`, the string that has `d` at position `i` and the digits of `s`
elsewhere is rejected. -/
theorem ValidateOrderID_detects_single_digit_error (s : String) (i : Nat) (d : Char)
    (hs : isDigitString s = true) (hi : i < s.toList.length) (hd : isDigit d = true)
    (hne : s.toList.get ⟨i, hi⟩ ≠ d) (hacc : ValidateOrderID s = true) :
    ValidateOrderID (String.mk (s.toList.set i d)) = false := by
  have hall : ∀ x, x ∈ s.toList → isDigit x = true := by
    simpa [isDigitString, List.all_eq_true] using hs
  have hcut : s.toList = s.toList.take i ++ s.toList.get ⟨i, hi⟩ :: s.toList.drop (i + 1) := by
    rw [List.get_eq_getElem, ← List.drop_eq_getElem_cons hi, List.take_append_drop]
  have hset : s.toList.set i d = s.toList.take i ++ d :: s.toList.drop (i + 1) := by
    rw [List.set_eq_take_append_cons_drop, if_pos hi]
  rw [hset]
  apply ValidateOrderID_single_digit_cut (s.toList.take i) (s.toList.drop (i + 1))
    (s.toList.get ⟨i, hi⟩) d
  · intro x hx; exact hall x (List.mem_of_mem_take hx)
  · intro x hx; exact hall x (List.mem_of_mem_drop hx)
  · exact hall _ (List.get_mem _ _ _)
  · exact hd
  · exact hne
  · rw [← hcut]; exact hacc

/-- C19 (witness): "12345678903" is accepted; with its last digit replaced by 4 it
is rejected. -/
theorem ValidateOrderID_detects_single_digit_error_witness :
    ValidateOrderID "12345678903" = true ∧ ValidateOrderID "12345678904" = false :=
  ⟨by decide,
   ValidateOrderID_detects_single_digit_error "12345678903" 10 '4' (by decide) (by decide)
     (by decide) (by decide) (by decide)⟩

/-! ## Discovery loop: an empty listing -/

/-- C11: on a tick on which `GetOrderIDs` returns an empty list and no error, the
discovery loop sends no order and no error: it only logs, and it stays in its
loop, so that the next tick is served. -/
theorem discoveryTick_empty_listing {σ : Type} (storage : Storage σ) (s : σ)
    (h : storage.GetOrderIDs s = ([], none)) :
    (discoveryTick storage s).1 =
      [.callGetOrderIDs, .log "worker nothing to do, no orders in progress"] ∧
    sentOrders (discoveryTick storage s).1 = [] ∧
    sentErrs (discoveryTick storage s).1 = [] ∧
    (discoveryTick storage s).2 = .running ∧
    (∀ ticks, discoveryLoop storage (s :: ticks) =
      ((discoveryTick storage s).1 ++ (discoveryLoop storage ticks).1,
        (discoveryLoop storage ticks).2)) := by
  have ht : discoveryTick storage s =
      ([.callGetOrderIDs, .log "worker nothing to do, no orders in progress"], .running) := by
    simp [discoveryTick, h]
  refine ⟨by rw [ht], by rw [ht]; rfl, by rw [ht]; rfl, by rw [ht], ?_⟩
  intro ticks
  simp [discoveryLoop, ht]

/-- C11 (witness): the store whose only order is processed lists nothing; a second
tick is served after the first. -/
theorem discoveryTick_empty_listing_witness :
    Database.GetOrderIDs dbProcessed = ([], none) ∧
    sentOrders (discoveryTick Database dbProcessed).1 = [] ∧
    sentErrs (discoveryTick Database dbProcessed).1 = [] ∧
    (discoveryTick Database dbProcessed).2 = .running ∧
    countGetOrderIDs (discoveryLoop Database [dbProcessed, dbProcessed]).1 = 2 :=
  have h := discoveryTick_empty_listing Database dbProcessed (by decide)
  ⟨by decide, h.2.1, h.2.2.1, h.2.2.2.1, by decide⟩

/-! ## Worker: no terminal state -/

theorem workerCase_eq_workerStep {σ : Type} (storage : Storage σ) (nameWorker : Nat)
    (ev : WorkerEvent) (s : σ) :
    (workerCase storage nameWorker ev s).1 = (workerStep storage nameWorker ev s).1 ∧
    (workerCase storage nameWorker ev s).2.1 = (workerStep storage nameWorker ev s).2 := by
  cases ev with
  | pause => simp [workerCase, workerStep]
  | order order reply =>
    simp only [workerCase, workerStep]
    cases (GetOrderInfo reply).2 with
    | some err => simp
    | none =>
      cases (storage.ApplyAccural (GetOrderInfo reply).1 s).1 <;> simp

theorem workerSelect_normal {σ : Type} (storage : Storage σ) (nameWorker : Nat)
    (ev : WorkerEvent) (s : σ) :
    workerSelect storage nameWorker ev s =
      ((workerStep storage nameWorker ev s).1, (workerStep storage nameWorker ev s).2, .normal) := by
  have h := workerCase_eq_workerStep storage nameWorker ev s
  unfold workerSelect
  simp only [h.1, h.2]
  split <;> rfl

theorem workerLoop_running {σ : Type} (storage : Storage σ) (nameWorker : Nat)
    (evs : List WorkerEvent) : ∀ s : σ,
    workerLoop storage nameWorker evs s =
      ((workerRun storage nameWorker evs s).1, (workerRun storage nameWorker evs s).2,
        .running) := by
  induction evs with
  | nil => intro s; simp [workerLoop, workerRun]
  | cons ev evs ih =>
    intro s
    simp only [workerLoop, workerRun, workerSelect_normal, ih]

theorem workerRun_append {σ : Type} (storage : Storage σ) (nameWorker : Nat)
    (evs more : List WorkerEvent) : ∀ s : σ,
    workerRun storage nameWorker (evs ++ more) s =
      ((workerRun storage nameWorker evs s).1 ++
          (workerRun storage nameWorker more (workerRun storage nameWorker evs s).2).1,
        (workerRun storage nameWorker more (workerRun storage nameWorker evs s).2).2) := by
  induction evs with
  | nil => intro s; simp [workerRun]
  | cons ev evs ih =>
    intro s
    rw [List.cons_append]
    simp only [workerRun]
    rw [ih]
    simp only [List.append_assoc]

/-- C16: a worker has no terminal state. After every finite sequence of events
(dequeued orders with any query outcome and any outcome of `ApplyAccural`, and
pause signals) the worker is still in its loop and its deferred `close(pause)`
has not run; the `break` after a failed query ended the `select` only, the
error having been sent; and whatever events follow are handled from the store
state the earlier ones left. -/
theorem worker_never_exits {σ : Type} (storage : Storage σ) (nameWorker : Nat)
    (evs : List WorkerEvent) (s : σ) :
    (workerGoroutine storage nameWorker evs s).2.2.1 = .running ∧
    (workerGoroutine storage nameWorker evs s).2.2.2 = false ∧
    (∀ order reply err, (GetOrderInfo reply).2 = some err →
      (workerCase storage nameWorker (.order order reply) s).2.2 = .break ∧
      (workerSelect storage nameWorker (.order order reply) s).2.2 = .normal ∧
      workerLoop storage nameWorker (.order order reply :: evs) s =
        ([.log "worker %d, order %s send request to accrual services", .callGetOrderInfo order,
            .sendErr (workerError nameWorker err)] ++ (workerLoop storage nameWorker evs s).1,
          (workerLoop storage nameWorker evs s).2)) ∧
    (∀ more,
      (workerLoop storage nameWorker (evs ++ more) s).1 =
        (workerLoop storage nameWorker evs s).1 ++
          (workerLoop storage nameWorker more (workerLoop storage nameWorker evs s).2.1).1 ∧
      (workerLoop storage nameWorker (evs ++ more) s).2 =
        (workerLoop storage nameWorker more (workerLoop storage nameWorker evs s).2.1).2) := by
  refine ⟨?_, ?_, ?_, ?_⟩
  · simp [workerGoroutine, workerLoop_running]
  · simp [workerGoroutine, workerLoop_running]
  · intro order reply err h
    refine ⟨by simp [workerCase, h], by simp [workerSelect_normal], ?_⟩
    simp [workerLoop, workerSelect_normal, workerStep, h]
  · intro more
    simp [workerLoop_running, workerRun_append]

/-! ## Registration -/

theorem httpError_new (error : String) (code : Nat) :
    httpError .new error code =
      ⟨some code, [("X-Content-Type-Options", "nosniff"),
        ("Content-Type", "text/plain; charset=utf-8")], error ++ "\n"⟩ := by
  simp [httpError, ResponseWriter.new, ResponseWriter.DelHeader, ResponseWriter.SetHeader,
    ResponseWriter.WriteHeader, ResponseWriter.Write]

/-- C15: a registration request whose body does not decode as `UserAuthData` (an
empty body included) or whose decoded login or password is empty is answered
with status 400, with no `Authorization` header and without any call of
`AddUser`; when the body decoded and a field is empty the message is
"Request doesn't contain login or password". -/
theorem NewUserRegistration_rejects {τ : Type} (body : Body UserAuthData)
    (token hash : String × Option GoError)
    (addUser : UserAuthData → String → τ → (String × Option GoError) × τ) (s : τ)
    (h : body.unmarshalErr ≠ none ∨ body.parsedData.Login = "" ∨ body.parsedData.Password = "") :
    (NewUserRegistration .new body token hash addUser s).1.status = some 400 ∧
    (NewUserRegistration .new body token hash addUser s).1.GetHeader "Authorization" = none ∧
    (NewUserRegistration .new body token hash addUser s).2.1 = [] ∧
    (NewUserRegistration .new body token hash addUser s).2.2 = s ∧
    (body.readErr = none → body.unmarshalErr = none →
      (NewUserRegistration .new body token hash addUser s).1.body =
        "Request doesn't contain login or password\n") := by
  cases hr : body.readErr with
  | some e =>
    simp [NewUserRegistration, ParseJSON, hr, httpError_new, StatusBadRequest,
      ResponseWriter.GetHeader]
  | none =>
    cases hu : body.unmarshalErr with
    | some e =>
      simp [NewUserRegistration, ParseJSON, hr, hu, httpError_new, StatusBadRequest,
        ResponseWriter.GetHeader]
    | none =>
      have h' : body.parsedData.Login = "" ∨ body.parsedData.Password = "" := by
        rcases h with h | h
        · exact absurd hu h
        · exact h
      simp [NewUserRegistration, ParseJSON, hr, hu, h', httpError_new, StatusBadRequest,
        ResponseWriter.GetHeader]

/-- C15 (witness): the empty body and the body without login, with a token, a hash
and a user store that would all succeed. -/
theorem NewUserRegistration_rejects_witness :
    (NewUserRegistration .new bodyEmpty ("token", none) ("hash", none) addUserAlways ()).1.status =
      some 400 ∧
    (NewUserRegistration .new bodyEmpty ("token", none) ("hash", none) addUserAlways ()).1.body =
      "Error while unmarshaling data unexpected end of JSON input\n" ∧
    (NewUserRegistration .new bodyNoLogin ("token", none) ("hash", none) addUserAlways ()).1.body =
      "Request doesn't contain login or password\n" ∧
    (NewUserRegistration .new bodyNoLogin ("token", none) ("hash", none) addUserAlways ()).2.1 =
      [] :=
  have h₁ := NewUserRegistration_rejects bodyEmpty ("token", none) ("hash", none) addUserAlways ()
    (Or.inl (by decide))
  have h₂ := NewUserRegistration_rejects bodyNoLogin ("token", none) ("hash", none) addUserAlways ()
    (Or.inr (Or.inl rfl))
  ⟨h₁.1, by decide, h₂.2.2.2.2 rfl rfl, h₂.2.2.1⟩

/-! ## Uploading an order -/

/-- C18: `CreateNewOrder` answers every request with exactly one status. When
`ValidateOrderID` rejects the body the status is 422 and `AddOrder` is not
called. Otherwise `AddOrder` is called once and the status follows from the
pair it returns: 202 for (true, nil), 200 for true with an error, 409 whenever
the first component is false. -/
theorem CreateNewOrder_status {τ : Type} (orderID userID : String)
    (addOrder : String → String → τ → (Bool × Option GoError) × τ) (s : τ) :
    (ValidateOrderID orderID = false →
      (CreateNewOrder .new orderID userID addOrder s).1.status = some 422 ∧
      (CreateNewOrder .new orderID userID addOrder s).2.1 = [] ∧
      (CreateNewOrder .new orderID userID addOrder s).2.2 = s) ∧
    (ValidateOrderID orderID = true →
      (CreateNewOrder .new orderID userID addOrder s).2.1 = [(orderID, userID)] ∧
      (CreateNewOrder .new orderID userID addOrder s).2.2 = (addOrder orderID userID s).2 ∧
      ((addOrder orderID userID s).1 = (true, none) →
        (CreateNewOrder .new orderID userID addOrder s).1.status = some 202) ∧
      (∀ err, (addOrder orderID userID s).1 = (true, some err) →
        (CreateNewOrder .new orderID userID addOrder s).1.status = some 200) ∧
      (∀ err, (addOrder orderID userID s).1 = (false, err) →
        (CreateNewOrder .new orderID userID addOrder s).1.status = some 409)) ∧
    (∃ code, (CreateNewOrder .new orderID userID addOrder s).1.status = some code ∧
      (code = 422 ∨ code = 202 ∨ code = 200 ∨ code = 409)) := by
  have hcases : ∀ p : Bool × Option GoError,
      p = (true, none) ∨ (∃ err, p = (true, some err)) ∨ (∃ err, p = (false, err)) := by
    rintro ⟨b, e⟩
    cases b <;> cases e <;> simp
  cases hv : ValidateOrderID orderID with
  | false =>
    simp [CreateNewOrder, hv, httpError_new, StatusUnprocessableEntity]
  | true =>
    rcases hcases (addOrder orderID userID s).1 with h | ⟨err, h⟩ | ⟨err, h⟩ <;>
      simp [CreateNewOrder, hv, h, httpError, ResponseWriter.new, ResponseWriter.DelHeader,
        ResponseWriter.SetHeader, ResponseWriter.WriteHeader, ResponseWriter.Write,
        StatusOK, StatusAccepted, StatusConflict]

/-- What `AddOrder` returns on a healthy connection: (true, nil) with the order
inserted as NEW when no order is stored under the number, true with an error
when the first such order belongs to the same user, false with an error when
it belongs to another user; in the last two cases the table is unchanged. -/
theorem AddOrder_outcomes (id u : String) (orders : List OrderRow) :
    ((orders.find? fun r => r.external_id = id) = none →
      AddOrder ⟨none, none⟩ id u orders = ((true, none), orders ++ [⟨u, "NEW", id, none⟩])) ∧
    (∀ r, (orders.find? fun r => r.external_id = id) = some r →
      (AddOrder ⟨none, none⟩ id u orders).2 = orders ∧
      (AddOrder ⟨none, none⟩ id u orders).1.2 ≠ none ∧
      (AddOrder ⟨none, none⟩ id u orders).1.1 = decide (r.user_id = u)) := by
  constructor
  · intro h
    simp [AddOrder, h]
  · intro r h
    by_cases hu : r.user_id = u <;> simp [AddOrder, h, hu]

/-! ## Withdrawals -/

/-- When `GetUserBalance` succeeds and the balance is below the requested sum,
`AddWithdrawal` inserts nothing and returns nil. -/
theorem AddWithdrawal_insufficient (balance : UserBalance × Option GoError)
    (insert : Option GoError) (u : String) (w : Withdrawal) (rows : List WithdrawalRow)
    (hb : balance.2 = none) (hlt : Float64.lt balance.1.Current w.Sum = true) :
    AddWithdrawal balance insert u w rows = (none, rows) := by
  simp [AddWithdrawal, hb, hlt]

/-- C17 (code evaluated at the failing input): for a user whose balance is 0 and a
request to withdraw 500 against order 12345678903, `AddWithdrawal` inserts no
row and returns nil, and `ExecutePayment` answers 200 with table `withdrawal`
still empty. -/
theorem AddWithdrawal_insufficient_balance_returns_nil :
    Float64.lt balanceZero.1.Current f500 = true ∧
    AddWithdrawal balanceZero none "user-1" ⟨"12345678903", f500⟩ [] = (none, []) ∧
    (ExecutePayment .new bodyWithdraw500 "user-1" (AddWithdrawal balanceZero none) []).1.status =
      some 200 ∧
    (ExecutePayment .new bodyWithdraw500 "user-1" (AddWithdrawal balanceZero none) []).2.2 = [] := by
  decide

/-! ## End to end -/

theorem GetOrderIDs_single (orders : List OrderRow)
    (h : (orders.filter inProgress).map (fun r => r.external_id) = ["12345678903"]) :
    GetOrderIDs .none orders = (["12345678903"], none) := by
  rw [GetOrderIDs_canonical orders, h]
  intro r hr hp
  refine ⟨12345678903, by norm_num, ?_⟩
  have hmem : r.external_id ∈ (orders.filter inProgress).map (fun r => r.external_id) :=
    List.mem_map.mpr ⟨r, List.mem_filter.mpr ⟨hr, hp⟩, rfl⟩
  rw [h, List.mem_singleton] at hmem
  rw [hmem]
  decide

/-- A cycle on a healthy store that lists one order, whose query succeeds with
result `a`: the result is applied once and the table is the updated one. -/
theorem discoveryCycle_single (orders : List OrderRow) (w : Nat) (reply : RoundTrip)
    (a : AccrualInfo)
    (h : (orders.filter inProgress).map (fun r => r.external_id) = ["12345678903"])
    (hq : GetOrderInfo reply = (a, none)) :
    (discoveryCycle Database [(w, reply)] ⟨orders, .none, none, none⟩).2 =
      ⟨sqlUpdate a orders, .none, none, none⟩ ∧
    appliedAccruals (discoveryCycle Database [(w, reply)] ⟨orders, .none, none, none⟩).1 = [a] ∧
    sentOrders (discoveryCycle Database [(w, reply)] ⟨orders, .none, none, none⟩).1 =
      ["12345678903"] := by
  have hids : Database.GetOrderIDs ⟨orders, .none, none, none⟩ = (["12345678903"], none) :=
    GetOrderIDs_single orders h
  have hap : Database.ApplyAccural a ⟨orders, .none, none, none⟩ =
      (none, ⟨sqlUpdate a orders, .none, none, none⟩) := by
    have := ApplyAccural_healthy a orders
    simp only [TxFaults.none] at this
    simp [Database, this]
  simp [discoveryCycle, discoveryTick, hids, sentOrders, drain, workerStep, hq, hap,
    appliedAccruals]

/-- Overwriting an order in progress with a status in progress keeps the list of
the orders in progress. -/
theorem filter_inProgress_sqlUpdate (a : AccrualInfo) (orders : List OrderRow)
    (ha : a.Status ≠ "INVALID" ∧ a.Status ≠ "PROCESSED")
    (h : ∀ r, r ∈ orders → r.external_id = a.Order → inProgress r = true) :
    ((sqlUpdate a orders).filter inProgress).map (fun r => r.external_id) =
      (orders.filter inProgress).map (fun r => r.external_id) := by
  induction orders with
  | nil => rfl
  | cons r rs ih =>
    have ih' := ih fun x hx => h x (List.mem_cons_of_mem r hx)
    simp only [sqlUpdate, List.map_cons] at ih' ⊢
    by_cases hid : r.external_id = a.Order
    · have hr : inProgress r = true := h r (List.mem_cons_self r rs) hid
      have hnew : inProgress { r with status := a.Status, amount := some a.Accrual } = true := by
        simp [inProgress, ha.1, ha.2]
      rw [if_pos hid, List.filter_cons_of_pos hnew, List.filter_cons_of_pos hr]
      simp only [List.map_cons, ih']
    · rw [if_neg hid]
      by_cases hr : inProgress r = true
      · rw [List.filter_cons_of_pos hr, List.filter_cons_of_pos hr]
        simp only [List.map_cons, ih']
      · rw [List.filter_cons_of_neg hr, List.filter_cons_of_neg hr]
        exact ih'

/-- C12: end to end. On a healthy store whose only order in progress is
"12345678903", after two discovery cycles, each drained by a worker, in which
the accrual service answers the first query with status PROCESSING and the
second with status PROCESSED and accrual 500, the order is stored with status
PROCESSED and accrual 500, every other order is as it was, and this holds
whichever workers `w₁` and `w₂` handled the order; the first tick leaves the
discovery loop running. -/
theorem twoCycles_end_to_end (orders : List OrderRow) (w₁ w₂ : Nat)
    (h₁ : (orders.filter inProgress).map (fun r => r.external_id) = ["12345678903"])
    (h₂ : ∀ r, r ∈ orders → r.external_id = "12345678903" → inProgress r = true) :
    (twoCycles w₁ w₂ ⟨orders, .none, none, none⟩).orders =
      sqlUpdate ⟨"12345678903", "PROCESSED", f500⟩ orders ∧
    (∃ r, r ∈ (twoCycles w₁ w₂ ⟨orders, .none, none, none⟩).orders ∧
      r.external_id = "12345678903" ∧ r.status = "PROCESSED" ∧ r.amount = some f500) ∧
    (∀ r, r ∈ (twoCycles w₁ w₂ ⟨orders, .none, none, none⟩).orders →
      r.external_id = "12345678903" → r.status = "PROCESSED" ∧ r.amount = some f500) ∧
    (∀ r, r.external_id ≠ "12345678903" →
      (r ∈ (twoCycles w₁ w₂ ⟨orders, .none, none, none⟩).orders ↔ r ∈ orders)) ∧
    (discoveryTick Database ⟨orders, .none, none, none⟩).2 = .running := by
  have hids : Database.GetOrderIDs ⟨orders, .none, none, none⟩ = (["12345678903"], none) :=
    GetOrderIDs_single orders h₁
  have hrun : (discoveryTick Database ⟨orders, .none, none, none⟩).2 = .running := by
    simp [discoveryTick, hids]
  have hq₁ : GetOrderInfo replyProcessing = (⟨"12345678903", "PROCESSING", Float64.zero⟩, none) := by
    decide
  have hq₂ : GetOrderInfo reply200 = (⟨"12345678903", "PROCESSED", f500⟩, none) := by decide
  have hc₁ := (discoveryCycle_single orders w₁ replyProcessing _ h₁ hq₁).1
  have h₁' : ((sqlUpdate ⟨"12345678903", "PROCESSING", Float64.zero⟩ orders).filter
      inProgress).map (fun r => r.external_id) = ["12345678903"] := by
    rw [filter_inProgress_sqlUpdate _ orders (by decide) h₂, h₁]
  have hc₂ := (discoveryCycle_single _ w₂ reply200 _ h₁' hq₂).1
  have hfinal : (twoCycles w₁ w₂ ⟨orders, .none, none, none⟩).orders =
      sqlUpdate ⟨"12345678903", "PROCESSED", f500⟩ orders := by
    unfold twoCycles
    rw [hc₁, hc₂]
    exact sqlUpdate_twice _ _ orders rfl
  rw [hfinal]
  refine ⟨rfl, ?_, fun r hr hid => sqlUpdate_matching _ orders r hr hid,
    fun r hid => sqlUpdate_others _ orders r hid, hrun⟩
  have hmem : "12345678903" ∈ (orders.filter inProgress).map (fun r => r.external_id) := by
    rw [h₁]; exact List.mem_singleton.mpr rfl
  obtain ⟨r, hr, hid⟩ := List.mem_map.mp hmem
  refine ⟨{ r with status := "PROCESSED", amount := some f500 }, ?_, hid, rfl, rfl⟩
  simp only [sqlUpdate, List.mem_map]
  exact ⟨r, (List.mem_filter.mp hr).1, if_pos hid⟩

/-- C12 (witness): the store whose only order is the new order 12345678903, handled
by worker 0 in the first cycle and by worker 4 in the second. -/
theorem twoCycles_end_to_end_witness :
    (twoCycles 0 4 dbOneOrder).orders = [⟨"user-1", "PROCESSED", "12345678903", some f500⟩] :=
  (twoCycles_end_to_end dbOneOrder.orders 0 4 (by decide) (by decide)).1

end Gofermart

